import Mathlib

/-!
# ParakhPatch dashboard: telemetry ingestion core

A shallow embedding of `src/dashboard/src/App.js` (the synthetic generator,
`processData`, the statistics derived from the snapshot, the polling effect and
`askAI`) and of the two components `AlertBanner.jsx` and `EnergyPanel.jsx` as
`App` calls them, together with theorems about it.

Modelling conventions.

* JavaScript numbers are modelled by rationals (`ℚ`).  A numeric field of a
  reading holds the decimal that JavaScript prints for the number (the shortest
  decimal that reads back as the same double), so that comparisons with the
  decimal constants of the source are exact; `toDouble` gives the value of the
  double itself, and is applied where the source rounds or multiplies a field.
  A numeric field that may be missing from a reading is an `Option ℚ`, `none`
  standing for `undefined`.  Comparing `undefined` with a number is `false`, as
  in JavaScript (`undefined` coerces to `NaN`).
* The arithmetic of the generator is carried out on its inputs (sine values and
  random draws) without intermediate rounding.
* `Math.sin`, `Math.cos`, `Math.random` and the clock are inputs: the
  generator takes the two trigonometric functions, the five random draws it
  makes (in evaluation order) and the current instant as arguments.
* The history object is a plain object: its own properties map a unit id to an
  array of points (an association list in insertion order), and a read of a
  key it does not own goes on to `Object.prototype`.  An updater that throws
  stores nothing.
* A `useState` cell is a field of `AppState`; `processData` is a function from
  the state before the call to the state after it.
* One tick of the polling effect is the interval callback together with the
  settlement of its promise chain; the result of the fetch is an input.  The
  lifecycle of the timer is an event system over `Controller`.
* A component is a function of its props object; a property the caller does
  not set is `none`, and a destructuring default applies to it.
-/

namespace ParakhPatch

/-! ## JavaScript primitives -/

/-- The JavaScript expression `a || b` on optional numbers: `a` when it is
truthy (present and non-zero), otherwise `b`. -/
def jsOr (a b : Option ℚ) : Option ℚ :=
  match a with
  | some x => if x = 0 then b else some x
  | none => b

/-- The JavaScript comparison `a > c` for an optional number `a`. -/
def jsGt (a : Option ℚ) (c : ℚ) : Bool :=
  match a with
  | some x => decide (x > c)
  | none => false

/-- The JavaScript comparison `a <= c` for an optional number `a`. -/
def jsLe (a : Option ℚ) (c : ℚ) : Bool :=
  match a with
  | some x => decide (x ≤ c)
  | none => false

/-- The JavaScript comparison `a < c` for an optional number `a`. -/
def jsLt (a : Option ℚ) (c : ℚ) : Bool :=
  match a with
  | some x => decide (x < c)
  | none => false

/-- Nearest integer, ties away from zero: the integer `n` that
`Number.prototype.toFixed` picks for the scaled value. -/
def roundHalfAway (x : ℚ) : ℤ :=
  if 0 ≤ x then ⌊x + 1 / 2⌋ else -⌊-x + 1 / 2⌋

/-- The number denoted by the text `x.toFixed(d)`: `x` rounded to `d` decimals,
ties away from zero. -/
def toFixed (x : ℚ) (d : ℕ) : ℚ :=
  (roundHalfAway (x * 10 ^ d) : ℚ) / 10 ^ d

/-- The text of `x.toFixed(0)` for a number `x`. -/
def toFixed0Text (x : ℚ) : String :=
  toString (roundHalfAway x)

/-- The function `Math.round`: nearest integer, ties towards plus infinity. -/
def mathRound (x : ℚ) : ℤ :=
  ⌊x + 1 / 2⌋

/-- The function `Math.abs`. -/
def mathAbs (x : ℚ) : ℚ :=
  if 0 ≤ x then x else -x

/-- First significant decimal digit of a positive rational. -/
def leadingDigit (x : ℚ) : ℤ :=
  if 1 ≤ x then
    (⌊x⌋.toNat / 10 ^ Nat.log 10 ⌊x⌋.toNat : ℕ)
  else
    ⌊x * 10 ^ Nat.clog 10 ⌈1 / x⌉.toNat⌋

/-- The function `parseInt` applied to a number: the number is first printed,
in positional notation when `1e-6 ≤ |x| < 1e21` and in exponent notation
otherwise, and the leading run of digits is read back. -/
def parseIntNum (x : ℚ) : ℤ :=
  if x = 0 then 0
  else
    let a := mathAbs x
    let n : ℤ := if 1 / 1000000 ≤ a ∧ a < 10 ^ 21 then ⌊a⌋ else leadingDigit a
    if 0 ≤ x then n else -n

/-! ## Double precision -/

/-- Binary logarithm with fuel: the number of halvings that bring `n` below 2. -/
def log2Aux : ℕ → ℕ → ℕ
  | 0, _ => 0
  | fuel + 1, n => if 2 ≤ n then log2Aux fuel (n / 2) + 1 else 0

/-- The binary logarithm of a natural number, rounded down (0 for 0). -/
def binaryLog (n : ℕ) : ℕ :=
  log2Aux n n

/-- The power of two with an integer exponent. -/
def twoPow (e : ℤ) : ℚ :=
  if 0 ≤ e then ((2 ^ e.toNat : ℕ) : ℚ) else 1 / ((2 ^ (-e).toNat : ℕ) : ℚ)

/-- The binary exponent of a non-zero rational `x`: the integer `e` with
`2 ^ e ≤ |x| < 2 ^ (e + 1)`. -/
def binaryExponent (x : ℚ) : ℤ :=
  let e0 : ℤ := (binaryLog x.num.natAbs : ℤ) - (binaryLog x.den : ℤ)
  if twoPow e0 ≤ |x| then e0 else e0 - 1

/-- Nearest integer, ties to the even one: the rounding of IEEE 754 arithmetic. -/
def roundHalfEven (y : ℚ) : ℤ :=
  if y - ⌊y⌋ < 1 / 2 then ⌊y⌋
  else if y - ⌊y⌋ > 1 / 2 then ⌊y⌋ + 1
  else if ⌊y⌋ % 2 = 0 then ⌊y⌋ else ⌊y⌋ + 1

/-- The value of the double nearest to `x`: a significand of 53 bits, the least
exponent -1022 (subnormal numbers below it), ties to even.  The exponent is not
limited from above; a result beyond `doubleMax` stands for an infinity. -/
def toDouble (x : ℚ) : ℚ :=
  if x = 0 then 0
  else
    let ulp := twoPow (max (binaryExponent x) (-1022) - 52)
    (roundHalfEven (x / ulp) : ℚ) * ulp

/-- The largest finite double. -/
def doubleMax : ℚ :=
  2 ^ 1024 - 2 ^ 971

/-! ## Data model -/

/-- One element of the snapshot: the object received from `GET /machines`, or
the one built by the generator. -/
structure Reading where
  machine_id : String
  source : Option String
  temperature : Option ℚ
  avg_temp : Option ℚ
  vibration : Option ℚ
  avg_vibration : Option ℚ
  humidity : Option ℚ
  avg_humidity : Option ℚ
  signal_strength : Option ℚ
  avg_rssi : Option ℚ
  failure_risk : Option ℚ
  timestamp : Option String
  message : Option String
  deriving DecidableEq

/-- One retained sample, as pushed by `processData`.  The three `toFixed`
fields hold the number their text denotes; `risk` is `none` when the text is
not a numeral (`NaN`, or `Infinity` when the product overflows). -/
structure HistoryPoint where
  time : String
  temperature : ℚ
  vibration : ℚ
  humidity : ℚ
  rssi : ℤ
  risk : Option ℤ
  deriving DecidableEq

/-- One entry of the `alerts` state. -/
structure Alert where
  id : String
  msg : Option String
  risk : Option ℚ
  deriving DecidableEq

/-- One entry of the chat history. -/
structure ChatMessage where
  type : String
  text : String
  deriving DecidableEq

/-- The own properties of the `history` object: unit id to array of points. -/
abbrev History := List (String × List HistoryPoint)

/-- The property names every plain object inherits from `Object.prototype`. -/
def objectPrototypeKeys : List String :=
  ["constructor", "__defineGetter__", "__defineSetter__", "hasOwnProperty",
    "__lookupGetter__", "__lookupSetter__", "isPrototypeOf", "propertyIsEnumerable",
    "toString", "valueOf", "__proto__", "toLocaleString"]

/-- What a property read of the history object evaluates to: the array stored
under an own property, a member inherited from `Object.prototype` (a function,
or the prototype itself for `__proto__`: truthy and not iterable), or
`undefined`. -/
inductive PropertyValue where
  | array (arr : List HistoryPoint)
  | inherited
  | undefined
  deriving DecidableEq

/-- The own property `id` of the history object, if it has one. -/
def History.get (h : History) (id : String) : Option (List HistoryPoint) :=
  match h with
  | [] => none
  | (k, v) :: rest => if k = id then some v else History.get rest id

/-- Property write `h[id] = arr`. -/
def History.set (h : History) (id : String) (arr : List HistoryPoint) : History :=
  match h with
  | [] => [(id, arr)]
  | (k, v) :: rest => if k = id then (k, arr) :: rest else (k, v) :: History.set rest id arr

/-- The sequence stored for a unit, empty when the unit is not tracked. -/
def History.seq (h : History) (id : String) : List HistoryPoint :=
  (h.get id).getD []

/-- Property read `h[id]`: the own property when there is one, otherwise what
`Object.prototype` holds under that name. -/
def History.read (h : History) (id : String) : PropertyValue :=
  match h.get id with
  | some arr => PropertyValue.array arr
  | none =>
    if id ∈ objectPrototypeKeys then PropertyValue.inherited else PropertyValue.undefined

/-- The React state of `App`. -/
structure AppState where
  showHomepage : Bool
  machines : List Reading
  history : History
  chatInput : String
  chatHistory : List ChatMessage
  showAI : Bool
  loadingChat : Bool
  alerts : List Alert
  energySavings : ℚ
  isSynthetic : Bool
  apiOnline : Bool
  syntheticTick : ℤ

/-- The initial values given to `useState` and `useRef`. -/
def AppState.init : AppState where
  showHomepage := true
  machines := []
  history := []
  chatInput := ""
  chatHistory := []
  showAI := false
  loadingChat := false
  alerts := []
  energySavings := 0
  isSynthetic := false
  apiOnline := true
  syntheticTick := 0

/-! ## The synthetic generator -/

/-- The two functions of `Math` whose values the generator reads. -/
structure JsMath where
  sin : ℚ → ℚ
  cos : ℚ → ℚ

/-- The five results of `Math.random()` in one call of the generator, in
evaluation order: temperature, vibration, humidity, signal strength, risk. -/
structure Draws where
  temp : ℚ
  vibration : ℚ
  humidity : ℚ
  rssi : ℚ
  risk : ℚ

/-- The local `temp` of `generateSyntheticMachine`. -/
def synTemp (M : JsMath) (d : Draws) (t : ℤ) : ℚ :=
  68 + 12 * M.sin (t / 15) + (d.temp - 0.5) * 4

/-- The local `vibration` of `generateSyntheticMachine`. -/
def synVibration (M : JsMath) (d : Draws) (t : ℤ) : ℚ :=
  0.35 + 0.18 * mathAbs (M.sin (t / 8)) + (d.vibration - 0.5) * 0.06

/-- The local `humidity` of `generateSyntheticMachine`. -/
def synHumidity (M : JsMath) (d : Draws) (t : ℤ) : ℚ :=
  44 + 8 * M.cos (t / 20) + (d.humidity - 0.5) * 2

/-- The local `rssi` of `generateSyntheticMachine`. -/
def synRssi (d : Draws) : ℤ :=
  -58 + mathRound ((d.rssi - 0.5) * 10)

/-- The argument of the clamp in the local `risk`. -/
def synRiskRaw (M : JsMath) (d : Draws) (t : ℤ) : ℚ :=
  (synTemp M d t - 60) / 60 + synVibration M d t / 1.5 - 0.1 + (d.risk - 0.5) * 0.05

/-- The local `risk` of `generateSyntheticMachine`. -/
def synRisk (M : JsMath) (d : Draws) (t : ℤ) : ℚ :=
  min 0.95 (max 0.02 (synRiskRaw M d t))

/-- The template of the CRITICAL message. -/
def criticalMessage (risk : ℚ) : String :=
  "🔴 CRITICAL: Risk " ++ toFixed0Text (risk * 100) ++ "%!"

/-- The template of the WARNING message. -/
def warningMessage (risk : ℚ) : String :=
  "⚠️ WARNING: Risk " ++ toFixed0Text (risk * 100) ++ "%."

/-- The template of the OPTIMAL message. -/
def optimalMessage (risk : ℚ) : String :=
  "✅ OPTIMAL (Risk " ++ toFixed0Text (risk * 100) ++ "%)."

/-- The `message` field of the generated reading. -/
def synMessage (risk : ℚ) : String :=
  if risk > 0.8 then criticalMessage risk
  else if risk > 0.4 then warningMessage risk
  else optimalMessage risk

/-- The function `generateSyntheticMachine(t)`; `now` is the text of
`new Date().toISOString()`. -/
def generateSyntheticMachine (M : JsMath) (now : String) (d : Draws) (t : ℤ) : Reading :=
  let temp := synTemp M d t
  let vibration := synVibration M d t
  let humidity := synHumidity M d t
  let rssi := synRssi d
  let risk := synRisk M d t
  { machine_id := "M01"
    source := some "SYNTHETIC"
    temperature := some (toFixed temp 1)
    avg_temp := some (toFixed temp 1)
    vibration := some (toFixed vibration 3)
    avg_vibration := some (toFixed vibration 3)
    humidity := some (toFixed humidity 1)
    avg_humidity := some (toFixed humidity 1)
    signal_strength := some (rssi : ℚ)
    avg_rssi := some (rssi : ℚ)
    failure_risk := some (toFixed risk 3)
    timestamp := some now
    message := some (synMessage risk) }

/-! ## `processData` -/

/-- The text `(parseFloat(r) * 100).toFixed(0)` for a numeric `r`: the product
is a double product, and `toFixed` rounds the value of that double. -/
def riskPercent (r : ℚ) : Option ℤ :=
  let product := toDouble (toDouble r * 100)
  if doubleMax < |product| then none else some (roundHalfAway product)

/-- The point pushed for reading `m` at the label `timestamp`.  The method
`toFixed` rounds the value of the double, while `parseInt` reads the printed
decimal of the number. -/
def mkPoint (timestamp : String) (m : Reading) : HistoryPoint where
  time := timestamp
  temperature :=
    toFixed (toDouble ((jsOr (jsOr m.temperature m.avg_temp) (some 0)).getD 0)) 1
  vibration :=
    toFixed (toDouble ((jsOr (jsOr m.vibration m.avg_vibration) (some 0)).getD 0)) 3
  humidity :=
    toFixed (toDouble ((jsOr (jsOr m.humidity m.avg_humidity) (some 0)).getD 0)) 1
  rssi := parseIntNum ((jsOr (jsOr m.signal_strength m.avg_rssi) (some 0)).getD 0)
  risk := m.failure_risk.bind riskPercent

/-- The body of `data.forEach` in the `setHistory` updater; `none` when it
throws.  In `newHistory[id] ? [...newHistory[id]] : []` an own array is copied
and `undefined` gives `[]`, but a member inherited from `Object.prototype` is
truthy and not iterable, so that the spread raises a `TypeError`. -/
def recordReading (timestamp : String) (newHistory : History) (m : Reading) :
    Option History :=
  let store := fun (prevArr : List HistoryPoint) =>
    let pushed := prevArr ++ [mkPoint timestamp m]
    let shifted := if pushed.length > 50 then pushed.tail else pushed
    newHistory.set m.machine_id shifted
  match newHistory.read m.machine_id with
  | PropertyValue.array arr => some (store arr)
  | PropertyValue.inherited => none
  | PropertyValue.undefined => some (store [])

/-- The `setHistory` updater: `prev` to the new history, `none` when the body
of `forEach` throws for one of the readings. -/
def updateHistory (timestamp : String) (data : List Reading) (prev : History) :
    Option History :=
  match data with
  | [] => some prev
  | m :: rest =>
    match recordReading timestamp prev m with
    | some next => updateHistory timestamp rest next
    | none => none

/-- The local `newAlerts` of `processData`. -/
def newAlerts (data : List Reading) : List Alert :=
  (data.filter (fun m => jsGt m.failure_risk 0.4)).map
    (fun m => { id := m.machine_id, msg := m.message, risk := m.failure_risk })

/-- The local `healthyCount` of `processData`. -/
def healthyCount (data : List Reading) : ℕ :=
  (data.filter (fun m => jsLe m.failure_risk 0.4)).length

/-- The function `processData(data, synthetic)`; `timestamp` is the clock
label read inside the history updater.  The five setters are separate updates:
when the history updater throws, no new history is stored and the history keeps
its value (React reports the error when it renders, which the state does not
record). -/
def processData (data : List Reading) (synthetic : Bool) (timestamp : String)
    (s : AppState) : AppState :=
  { s with
    machines := data
    isSynthetic := synthetic
    history := (updateHistory timestamp data s.history).getD s.history
    alerts := newAlerts data
    energySavings := (healthyCount data : ℚ) * 125.5 }

/-- The derived statistic `optimalRange` of `App`. -/
def optimalRange (machines : List Reading) : ℕ :=
  (machines.filter (fun m => jsLt m.failure_risk 0.3)).length

/-- One call of `processData`: its two arguments and the clock label. -/
structure Tick where
  data : List Reading
  synthetic : Bool
  timestamp : String

/-- The state after a sequence of `processData` calls. -/
def runTicks (s : AppState) (ticks : List Tick) : AppState :=
  ticks.foldl (fun st k => processData k.data k.synthetic k.timestamp st) s

/-! ## Auxiliary definitions for the statements -/

/-- The array written back by `recordReading`, as a function of the array read. -/
def pushShift (prevArr : List HistoryPoint) (p : HistoryPoint) : List HistoryPoint :=
  if (prevArr ++ [p]).length > 50 then (prevArr ++ [p]).tail else prevArr ++ [p]

/-- Every stored array has at most 50 points. -/
def History.Bounded (h : History) : Prop :=
  ∀ p ∈ h, p.2.length ≤ 50

instance (h : History) : Decidable h.Bounded := by
  unfold History.Bounded
  infer_instance

/-- One processed tick that carries a single reading: the reading, the
`synthetic` flag and the clock label. -/
abbrev Observation := Reading × Bool × String

/-- The `processData` call made for an observation. -/
def Observation.tick (o : Observation) : Tick :=
  { data := [o.1], synthetic := o.2.1, timestamp := o.2.2 }

/-- The history point recorded for an observation. -/
def Observation.point (o : Observation) : HistoryPoint :=
  mkPoint o.2.2 o.1

/-- A sample live reading for unit `A`. -/
def sampleReading : Reading :=
  { machine_id := "A", source := some "LIVE", temperature := some (141 / 2), avg_temp := none,
    vibration := some (2 / 5), avg_vibration := none, humidity := some 45, avg_humidity := none,
    signal_strength := some (-60), avg_rssi := none, failure_risk := some (1 / 2),
    timestamp := some "2025-01-01T00:00:00.000Z", message := some "warm" }

/-- A sample stored point whose `rssi` field is `i`. -/
def samplePoint (i : ℕ) : HistoryPoint :=
  { time := "12:00:00", temperature := 70, vibration := 2 / 5, humidity := 45, rssi := i,
    risk := some 50 }

/-- A history in which unit `A` holds `n` points. -/
def sampleHistory (n : ℕ) : History :=
  [("B", [samplePoint 0]), ("A", (List.range n).map samplePoint)]

/-- The observations of `n` consecutive ticks for unit `A`, with distinct clock labels. -/
def sampleObservations (n : ℕ) : List Observation :=
  (List.range n).map (fun i => (sampleReading, false, toString i))

/-- The history after the single-reading ticks of `obs`, starting from `h`. -/
def recordAll (h : History) (obs : List Observation) : History :=
  obs.foldl (fun acc o => (recordReading o.2.2 acc o.1).getD acc) h

/-- A sample live reading whose unit id is `constructor`. -/
def constructorReading : Reading :=
  { sampleReading with machine_id := "constructor" }

/-- The observations of `n` consecutive ticks for the unit `constructor`. -/
def constructorObservations (n : ℕ) : List Observation :=
  (List.range n).map (fun i => (constructorReading, false, toString i))

/-- A sample live reading for unit `B` whose risk is exactly 0.3. -/
def boundaryReading : Reading :=
  { sampleReading with machine_id := "B", failure_risk := some 0.3 }

/-- The three status levels a message can announce. -/
inductive Level where
  | critical
  | warning
  | optimal
  deriving DecidableEq

/-- The level announced by a message text, read off its opening words. -/
def messageLevel (msg : String) : Option Level :=
  if "🔴 CRITICAL".data.isPrefixOf msg.data then some Level.critical
  else if "⚠️ WARNING".data.isPrefixOf msg.data then some Level.warning
  else if "✅ OPTIMAL".data.isPrefixOf msg.data then some Level.optimal
  else none

/-- The level announced by the message of a reading. -/
def Reading.level (r : Reading) : Option Level :=
  r.message.bind messageLevel

/-- Cut a value to the interval `[-1, 1]`. -/
def clampUnit (x : ℚ) : ℚ :=
  max (-1) (min 1 x)

/-- A rational stand-in for `Math.sin` and `Math.cos`: the Taylor polynomials of
degree 7 and 6, cut to `[-1, 1]`. -/
def taylorMath : JsMath where
  sin := fun x => clampUnit (x - x ^ 3 / 6 + x ^ 5 / 120 - x ^ 7 / 5040)
  cos := fun x => clampUnit (1 - x ^ 2 / 2 + x ^ 4 / 24 - x ^ 6 / 720)

/-- Random draws with the four sensor draws at 0.5 and the risk draw at 0.46. -/
def borderlineDraws : Draws :=
  { temp := 0.5, vibration := 0.5, humidity := 0.5, rssi := 0.5, risk := 0.46 }

/-- The synthetic reading of tick 5 under `taylorMath` and `borderlineDraws`. -/
def borderlineReading : Reading :=
  generateSyntheticMachine taylorMath "2025-01-01T00:00:10.000Z" borderlineDraws 5

/-- The agreement C10 asserts between the message of a reading and the
thresholds applied to its `failure_risk` field. -/
def MessageMatchesFailureRisk (r : Reading) : Prop :=
  (r.level = some Level.critical ↔ jsGt r.failure_risk 0.8 = true) ∧
    (r.level = some Level.warning ↔
      (jsGt r.failure_risk 0.4 = true ∧ jsLe r.failure_risk 0.8 = true)) ∧
    (r.level = some Level.optimal ↔ jsLe r.failure_risk 0.4 = true) ∧
    (newAlerts [r] ≠ [] ↔ r.level ≠ some Level.optimal)

instance (r : Reading) : Decidable (MessageMatchesFailureRisk r) := by
  unfold MessageMatchesFailureRisk
  infer_instance

/-! ## The polling effect -/

/-- The value `res.json()` resolves to, as far as the polling effect tells
values apart: an array of readings, or a JSON value that is falsy or has no
positive `length` (`null`, a number, a boolean, an object without `length`). -/
inductive JsonValue where
  | array (data : List Reading)
  | other
  deriving DecidableEq

/-- The result of `res.json()`: a decoded value, or a rejection when the body is
not JSON. -/
inductive Body where
  | json (v : JsonValue)
  | notJson
  deriving DecidableEq

/-- The result of `fetch(apiUrl + "/machines")`: a rejection (network or
transport failure), or a response with its HTTP status and body. -/
inductive FetchOutcome where
  | rejected
  | response (status : ℕ) (body : Body)
  deriving DecidableEq

/-- The property `res.ok` of a response: the status is in the range 200 to 299. -/
def httpOk (status : ℕ) : Bool :=
  decide (200 ≤ status ∧ status ≤ 299)

/-- What one tick reads from its environment besides the fetch result: the
functions of `Math`, the instant, the random draws and the clock label. -/
structure TickInputs where
  math : JsMath
  now : String
  draws : Draws
  label : String

/-- The fallback written twice in the effect:
`syntheticTick.current += 1; processData([generateSyntheticMachine(syntheticTick.current)], true)`. -/
def syntheticFallback (e : TickInputs) (s : AppState) : AppState :=
  let s1 := { s with syntheticTick := s.syntheticTick + 1 }
  processData [generateSyntheticMachine e.math e.now e.draws s1.syntheticTick] true e.label s1

/-- The `.catch` handler of the polling effect. -/
def onFetchError (e : TickInputs) (s : AppState) : AppState :=
  syntheticFallback e { s with apiOnline := false }

/-- The second `.then` handler of the polling effect, applied to the decoded
value: `if (data && data.length > 0) ... else ...`. -/
def onData (e : TickInputs) (v : JsonValue) (s : AppState) : AppState :=
  match v with
  | JsonValue.array data =>
    if data.length > 0 then processData data false e.label s
    else syntheticFallback e s
  | JsonValue.other => syntheticFallback e s

/-- One run of the interval callback together with the settlement of its
promise chain: the state before the tick to the state after it. -/
def pollTick (e : TickInputs) (o : FetchOutcome) (s : AppState) : AppState :=
  match o with
  | FetchOutcome.rejected => onFetchError e s
  | FetchOutcome.response _ body =>
    let s1 := { s with apiOnline := true }
    match body with
    | Body.json v => onData e v s1
    | Body.notJson => onFetchError e s1

/-- The outcomes the specification classifies as `FetchError`: a network or
transport failure, a response whose status is not 2xx, or a body that is not
JSON. -/
def specFetchError (o : FetchOutcome) : Bool :=
  match o with
  | FetchOutcome.rejected => true
  | FetchOutcome.response status body => !httpOk status || decide (body = Body.notJson)

/-- The outcome the specification classifies as `EmptyResult`: a valid response
with zero units. -/
def specEmptyResult (o : FetchOutcome) : Bool :=
  match o with
  | FetchOutcome.response status (Body.json (JsonValue.array [])) => httpOk status
  | _ => false

/-- Sample environment of a tick. -/
def sampleInputs : TickInputs :=
  { math := taylorMath, now := "2025-01-01T00:00:10.000Z", draws := borderlineDraws,
    label := "00:00:10" }

/-- A sample live reading whose risk lies above the range of the generator. -/
def unclampedReading : Reading :=
  { sampleReading with machine_id := "C", failure_risk := some 1.5 }

/-- A sample live reading whose risk is the double printed as
`0.08499999999999999`, the one just below the double nearest to 0.085. -/
def nearTieReading : Reading :=
  { sampleReading with machine_id := "D", failure_risk := some 0.08499999999999999 }

/-- The value `a || b || 0` of a fallback chain, by cases on the two fields:
the first field when it is present and non-zero, otherwise the second field
when it is present, otherwise 0. -/
def fallbackValue (a b : Option ℚ) : ℚ :=
  match a, b with
  | some x, some y => if x ≠ 0 then x else y
  | some x, none => x
  | none, some y => y
  | none, none => 0

/-- The chain `a ?? b ?? 0` that C15 describes: the first field whenever it is
present, otherwise the second field when it is present, otherwise 0. -/
def presenceFallback (a b : Option ℚ) : ℚ :=
  match a with
  | some x => x
  | none => b.getD 0

/-- A sample live reading that reports `temperature` 0 next to `avg_temp` 25. -/
def zeroTempReading : Reading :=
  { sampleReading with temperature := some 0, avg_temp := some 25 }

/-- A reading in which every numeric field is absent. -/
def bareReading : Reading :=
  { machine_id := "M07", source := none, temperature := none, avg_temp := none,
    vibration := none, avg_vibration := none, humidity := none, avg_humidity := none,
    signal_strength := none, avg_rssi := none, failure_risk := none, timestamp := none,
    message := none }

/-- A sample live reading for unit `B` at risk 0.5. -/
def sampleReadingB : Reading :=
  { sampleReading with machine_id := "B" }

/-- A state in which units `A` and `B` both have an alert. -/
def alertedState : AppState :=
  processData [sampleReading, sampleReadingB] false "12:00:00" AppState.init

/-! ## The chat request -/

/-- The value `res.json()` resolves to in `askAI`: `null` (reading `data.answer`
throws), or a value whose `answer` property is `answer` (`none` when it has
none). -/
inductive ChatJson where
  | null
  | value (answer : Option String)
  deriving DecidableEq

/-- The result of `res.json()` in `askAI`. -/
inductive ChatBody where
  | json (v : ChatJson)
  | notJson
  deriving DecidableEq

/-- The result of the `fetch` of `askAI`. -/
inductive ChatOutcome where
  | rejected
  | response (status : ℕ) (body : ChatBody)
  deriving DecidableEq

/-- The text pushed by the `catch` block of `askAI`. -/
def chatFailureText : String :=
  "⚠️ AI connection failed. Please ensure API is running."

/-- The `catch` block of `askAI`. -/
def askAICatch (s : AppState) : AppState :=
  { s with chatHistory := s.chatHistory ++ [{ type := "ai", text := chatFailureText }] }

/-- The `try` block of `askAI`, with the `catch` block for the paths that throw. -/
def askAITry (o : ChatOutcome) (s : AppState) : AppState :=
  match o with
  | ChatOutcome.rejected => askAICatch s
  | ChatOutcome.response status body =>
    if !httpOk status then askAICatch s
    else
      match body with
      | ChatBody.notJson => askAICatch s
      | ChatBody.json ChatJson.null => askAICatch s
      | ChatBody.json (ChatJson.value answer) =>
        let text := match answer with
          | some a => if a = "" then "No response from AI" else a
          | none => "No response from AI"
        { s with chatHistory := s.chatHistory ++ [{ type := "ai", text := text }] }

/-- The characters `String.prototype.trim` removes: the white space and line
terminator code points of ECMAScript. -/
def jsIsWhiteSpace (c : Char) : Bool :=
  c.toNat ∈ [0x09, 0x0A, 0x0B, 0x0C, 0x0D, 0x20, 0xA0, 0x1680, 0x2028, 0x2029, 0x202F, 0x205F,
      0x3000, 0xFEFF] ||
    decide (0x2000 ≤ c.toNat ∧ c.toNat ≤ 0x200A)

/-- The test `!text.trim()`: the text is empty once trimmed, that is, all its
characters are white space. -/
def trimsToEmpty (text : String) : Bool :=
  text.data.all jsIsWhiteSpace

/-- The function `askAI`, run to completion with the outcome `o` of its request. -/
def askAI (o : ChatOutcome) (s : AppState) : AppState :=
  if trimsToEmpty s.chatInput then s
  else
    let userMsg := s.chatInput
    let s1 := { s with
      chatInput := ""
      chatHistory := s.chatHistory ++ [{ type := "user", text := userMsg }]
      loadingChat := true }
    let s2 := askAITry o s1
    { s2 with loadingChat := false }

/-- The chat request fails: network error, non-ok status, or undecodable body. -/
def chatRequestFails (o : ChatOutcome) : Bool :=
  match o with
  | ChatOutcome.rejected => true
  | ChatOutcome.response status body => !httpOk status || decide (body = ChatBody.notJson)

/-- The telemetry part of the state: snapshot, history, alerts, savings, the two
connectivity flags and the synthetic tick counter. -/
def AppState.telemetry (s : AppState) :
    List Reading × History × List Alert × ℚ × Bool × Bool × ℤ :=
  (s.machines, s.history, s.alerts, s.energySavings, s.apiOnline, s.isSynthetic,
    s.syntheticTick)

/-- A state of the dashboard with a question typed into the chat box. -/
def chattingState : AppState :=
  { alertedState with showHomepage := false, showAI := true, chatInput := "status of A?" }

/-! ## The polling lifecycle -/

/-- The dashboard together with what lives outside the React state: whether the
interval timer of the polling effect is set, and how many requests started by
the timer have not settled yet. -/
structure Controller where
  app : AppState
  timerSet : Bool
  inFlight : ℕ

/-- What can happen to the controller: the user enters the dashboard (the
effect sets the interval), the user goes back to the homepage (the cleanup
clears the interval), the interval elapses (the callback starts a fetch), the
promise chain of a fetch settles. -/
inductive Event where
  | enterDashboard
  | leaveDashboard
  | timerFires
  | fetchSettles (e : TickInputs) (o : FetchOutcome)

/-- One event of the polling lifecycle.  The handlers of a settling fetch run
whatever the timer and `showHomepage` are: the effect holds no guard. -/
def Controller.step (c : Controller) (ev : Event) : Controller :=
  match ev with
  | Event.enterDashboard =>
    { c with app := { c.app with showHomepage := false }, timerSet := true }
  | Event.leaveDashboard =>
    { c with app := { c.app with showHomepage := true }, timerSet := false }
  | Event.timerFires =>
    if c.timerSet then { c with inFlight := c.inFlight + 1 } else c
  | Event.fetchSettles e o =>
    if c.inFlight > 0 then { c with app := pollTick e o c.app, inFlight := c.inFlight - 1 }
    else c

/-- The controller after a sequence of events. -/
def Controller.run (c : Controller) (evs : List Event) : Controller :=
  evs.foldl Controller.step c

/-- The controller when `App` mounts: the homepage is shown, no timer is set. -/
def Controller.init : Controller :=
  { app := AppState.init, timerSet := false, inFlight := 0 }

/-- The controller after the user entered the dashboard, the timer fired once
and the user left again before the fetch settled. -/
def stoppedWithFetchInFlight : Controller :=
  Controller.init.run [Event.enterDashboard, Event.timerFires, Event.leaveDashboard]

/-- The tick processes a live snapshot: the fetch resolved with a non-empty array. -/
def isLiveOutcome (o : FetchOutcome) : Bool :=
  match o with
  | FetchOutcome.response _ (Body.json (JsonValue.array (_ :: _))) => true
  | _ => false

/-- The state after a sequence of ticks, each given by its environment and its
fetch outcome. -/
def runPolls (s : AppState) (ticks : List (TickInputs × FetchOutcome)) : AppState :=
  ticks.foldl (fun st k => pollTick k.1 k.2 st) s

/-- The number of ticks of a sequence that fall back to synthetic data. -/
def syntheticCount (ticks : List (TickInputs × FetchOutcome)) : ℕ :=
  (ticks.filter (fun k => !isLiveOutcome k.2)).length

/-! ## Ranges of the generator -/

/-- The sine and the cosine take their values in `[-1, 1]`, as `Math.sin` and
`Math.cos` do. -/
def JsMath.Bounded (M : JsMath) : Prop :=
  ∀ x : ℚ, (-1 ≤ M.sin x ∧ M.sin x ≤ 1) ∧ (-1 ≤ M.cos x ∧ M.cos x ≤ 1)

/-- Every random draw lies in `[0, 1)`, as the results of `Math.random()` do. -/
def Draws.InUnit (d : Draws) : Prop :=
  (0 ≤ d.temp ∧ d.temp < 1) ∧ (0 ≤ d.vibration ∧ d.vibration < 1) ∧
    (0 ≤ d.humidity ∧ d.humidity < 1) ∧ (0 ≤ d.rssi ∧ d.rssi < 1) ∧
    (0 ≤ d.risk ∧ d.risk < 1)

/-! ## The alert banner and the energy panel -/

/-- The props object a caller hands to `AlertBanner`: the property `alerts` that
the component reads, and the properties `message` and `delay` that `App` sets. -/
structure AlertBannerProps where
  alerts : Option (List Alert)
  message : Option String
  delay : Option ℚ

/-- What `AlertBanner` renders when it renders anything: the heading and the
sentence with the number of machines. -/
structure BannerView where
  heading : String
  text : String
  deriving DecidableEq

/-- The component `AlertBanner`: `({ alerts = [] })`, `null` for an empty list. -/
def AlertBanner (props : AlertBannerProps) : Option BannerView :=
  let alerts := props.alerts.getD []
  if alerts.length = 0 then none
  else
    some
      { heading := "System Anomaly Detected"
        text := toString alerts.length ++ " machine" ++ (if alerts.length ≠ 1 then "s" else "")
          ++ " showing critical risk patterns. Immediate review required." }

/-- The props `App` passes to `AlertBanner`: `message` and `delay`. -/
def appAlertBannerProps (alerts : List Alert) : AlertBannerProps :=
  { alerts := none
    message := some (toString alerts.length ++ " machine"
      ++ (if alerts.length > 1 then "s" else "") ++ " showing critical risk. Check hardware.")
    delay := some 0.2 }

/-- The expression `alerts.length > 0 && <AlertBanner ... />` of `App`, rendered. -/
def appAlertBanner (s : AppState) : Option BannerView :=
  if s.alerts.length > 0 then AlertBanner (appAlertBannerProps s.alerts) else none

/-- The props object a caller hands to `EnergyPanel`: the properties `savings`
and `delay` that the component reads, and the property `value` that `App` sets. -/
structure EnergyPanelProps where
  savings : Option ℚ
  delay : Option ℚ
  value : Option ℚ

/-- The `value` that `EnergyPanel` hands to `AnimatedNumber`: its `savings`
parameter, `({ savings = 0, delay = 0 })`. -/
def energyPanelNumber (props : EnergyPanelProps) : ℚ :=
  props.savings.getD 0

/-- The props `App` passes to `EnergyPanel`: `value` and `delay`. -/
def appEnergyPanelProps (s : AppState) : EnergyPanelProps :=
  { savings := none, delay := some 0.8, value := some s.energySavings }

/-- A state after a tick with one healthy unit, so that the savings are 125.5. -/
def healthyState : AppState :=
  processData [boundaryReading] false "12:00:00" AppState.init

/-! ## History store lemmas -/

theorem History.get_set_self (h : History) (id : String) (arr : List HistoryPoint) :
    (h.set id arr).get id = some arr := by
  induction h with
  | nil => simp [History.set, History.get]
  | cons p rest ih =>
    obtain ⟨k, v⟩ := p
    by_cases hk : k = id
    · simp [History.set, History.get, hk]
    · simp [History.set, History.get, hk, ih]

theorem History.get_set_other (h : History) (id k : String) (arr : List HistoryPoint)
    (hne : k ≠ id) : (h.set id arr).get k = h.get k := by
  induction h with
  | nil =>
    have : ¬ id = k := fun e => hne e.symm
    simp [History.set, History.get, this]
  | cons p rest ih =>
    obtain ⟨k', v⟩ := p
    by_cases hk : k' = id
    · have : ¬ k' = k := fun e => hne (e.symm.trans hk)
      have h2 : ¬ id = k := fun e => hne e.symm
      simp [History.set, History.get, hk, h2]
    · by_cases hk2 : k' = k
      · subst hk2
        simp [History.set, History.get, hk]
      · simp [History.set, History.get, hk, hk2, ih]

theorem History.mem_set (h : History) (id : String) (arr : List HistoryPoint)
    (p : String × List HistoryPoint) (hp : p ∈ h.set id arr) : p ∈ h ∨ p.2 = arr := by
  induction h with
  | nil =>
    simp [History.set] at hp
    right; simp [hp]
  | cons q rest ih =>
    obtain ⟨k, v⟩ := q
    by_cases hk : k = id
    · simp [History.set, hk] at hp
      rcases hp with hp | hp
      · right; simp [hp]
      · left; simp [hp]
    · simp [History.set, hk] at hp
      rcases hp with hp | hp
      · left; simp [hp]
      · rcases ih hp with h1 | h1
        · left; simp [h1]
        · right; exact h1

theorem History.get_mem (h : History) (id : String) (arr : List HistoryPoint)
    (hg : h.get id = some arr) : ∃ p ∈ h, p.2 = arr := by
  induction h with
  | nil => simp [History.get] at hg
  | cons q rest ih =>
    obtain ⟨k, v⟩ := q
    by_cases hk : k = id
    · simp [History.get, hk] at hg
      exact ⟨(k, v), by simp, hg⟩
    · simp [History.get, hk] at hg
      obtain ⟨p, hp, e⟩ := ih hg
      exact ⟨p, by simp [hp], e⟩

theorem History.read_ne_inherited_of_not_mem (h : History) (id : String)
    (hid : id ∉ objectPrototypeKeys) : h.read id ≠ PropertyValue.inherited := by
  unfold History.read
  cases h.get id with
  | none => simp [hid]
  | some arr => simp

theorem History.read_ne_inherited_of_get (h : History) (id : String)
    (hg : (h.get id).isSome = true) : h.read id ≠ PropertyValue.inherited := by
  unfold History.read
  cases hget : h.get id with
  | none => simp [hget] at hg
  | some arr => simp

theorem recordReading_eq (ts : String) (h : History) (m : Reading) :
    recordReading ts h m
      = if h.read m.machine_id = PropertyValue.inherited then none
        else some (h.set m.machine_id (pushShift (h.seq m.machine_id) (mkPoint ts m))) := by
  unfold recordReading pushShift History.seq History.read
  cases hget : h.get m.machine_id with
  | some arr => simp
  | none =>
    by_cases hk : m.machine_id ∈ objectPrototypeKeys
    · simp [hk]
    · simp [hk]

theorem recordReading_of_readable (ts : String) (h : History) (m : Reading)
    (hr : h.read m.machine_id ≠ PropertyValue.inherited) :
    recordReading ts h m
      = some (h.set m.machine_id (pushShift (h.seq m.machine_id) (mkPoint ts m))) := by
  rw [recordReading_eq, if_neg hr]

theorem recordReading_some (ts : String) (h h2 : History) (m : Reading)
    (hs : recordReading ts h m = some h2) :
    h2 = h.set m.machine_id (pushShift (h.seq m.machine_id) (mkPoint ts m)) := by
  rw [recordReading_eq] at hs
  split_ifs at hs
  exact (Option.some.inj hs).symm

theorem pushShift_length_le (prevArr : List HistoryPoint) (p : HistoryPoint)
    (hlen : prevArr.length ≤ 50) : (pushShift prevArr p).length ≤ 50 := by
  unfold pushShift
  split
  · simp; omega
  · simp at *; omega

theorem History.Bounded.seq_le {h : History} (hb : h.Bounded) (id : String) :
    (h.seq id).length ≤ 50 := by
  unfold History.seq
  cases hg : h.get id with
  | none => simp
  | some arr =>
    obtain ⟨p, hp, e⟩ := History.get_mem h id arr hg
    simpa [e] using hb p hp

theorem recordReading_bounded (ts : String) (h h2 : History) (m : Reading) (hb : h.Bounded)
    (hs : recordReading ts h m = some h2) : h2.Bounded := by
  intro p hp
  rw [recordReading_some ts h h2 m hs] at hp
  rcases History.mem_set _ _ _ _ hp with h1 | h1
  · exact hb p h1
  · rw [h1]
    exact pushShift_length_le _ _ (hb.seq_le _)

theorem updateHistory_bounded (ts : String) (data : List Reading) (h h2 : History)
    (hb : h.Bounded) (hs : updateHistory ts data h = some h2) : h2.Bounded := by
  induction data generalizing h with
  | nil =>
    simp only [updateHistory, Option.some.injEq] at hs
    rw [← hs]
    exact hb
  | cons m rest ih =>
    simp only [updateHistory] at hs
    cases hr : recordReading ts h m with
    | none => simp [hr] at hs
    | some next =>
      rw [hr] at hs
      exact ih next (recordReading_bounded ts h next m hb hr) hs

theorem processData_bounded (data : List Reading) (synthetic : Bool) (ts : String)
    (s : AppState) (hb : s.history.Bounded) :
    (processData data synthetic ts s).history.Bounded := by
  show ((updateHistory ts data s.history).getD s.history).Bounded
  cases hu : updateHistory ts data s.history with
  | none => exact hb
  | some h2 => exact updateHistory_bounded ts data s.history h2 hb hu

theorem runTicks_bounded (s : AppState) (ticks : List Tick) (hb : s.history.Bounded) :
    (runTicks s ticks).history.Bounded := by
  unfold runTicks
  induction ticks generalizing s with
  | nil => simpa using hb
  | cons k rest ih =>
    exact ih _ (processData_bounded k.data k.synthetic k.timestamp s hb)

/-- C1. History bound invariant: starting from the empty history, after any
sequence of `processData` calls (arbitrary snapshots, live or synthetic, unit
ids possibly repeated inside a snapshot) the sequence stored for every unit id
has length at most 50, and so has every array held in the history object. -/
theorem history_length_le_50 (ticks : List Tick) (id : String) :
    ((runTicks AppState.init ticks).history.seq id).length ≤ 50 ∧
      (runTicks AppState.init ticks).history.all (fun p => decide (p.2.length ≤ 50)) = true := by
  have hb : (runTicks AppState.init ticks).history.Bounded :=
    runTicks_bounded _ _ (by intro p hp; simp [AppState.init] at hp)
  refine ⟨hb.seq_le id, ?_⟩
  rw [List.all_eq_true]
  intro p hp
  simpa using hb p hp

theorem pushShift_of_length_lt (prevArr : List HistoryPoint) (p : HistoryPoint)
    (hlen : prevArr.length < 50) : pushShift prevArr p = prevArr ++ [p] := by
  unfold pushShift
  rw [if_neg]
  simp; omega

theorem pushShift_of_length_ge (prevArr : List HistoryPoint) (p : HistoryPoint)
    (hlen : 50 ≤ prevArr.length) : pushShift prevArr p = prevArr.drop 1 ++ [p] := by
  unfold pushShift
  rw [if_pos (by simp; omega)]
  cases prevArr with
  | nil => simp at hlen
  | cons a l => simp

/-- The FIFO step for a unit id that can be read: an id that is tracked, or is
not the name of a member of `Object.prototype`.  With exactly 50 points the
oldest is dropped and the new point appended; with fewer the point is appended. -/
theorem fifo_eviction_step (timestamp : String) (h : History) (m : Reading)
    (hr : h.read m.machine_id ≠ PropertyValue.inherited) :
    ∃ h2 : History, recordReading timestamp h m = some h2 ∧
      ((h.seq m.machine_id).length = 50 →
        h2.seq m.machine_id = (h.seq m.machine_id).drop 1 ++ [mkPoint timestamp m] ∧
          (h2.seq m.machine_id).length = 50) ∧
      ((h.seq m.machine_id).length < 50 →
        h2.seq m.machine_id = h.seq m.machine_id ++ [mkPoint timestamp m]) := by
  have hseq : (h.set m.machine_id (pushShift (h.seq m.machine_id) (mkPoint timestamp m))).seq
      m.machine_id = pushShift (h.seq m.machine_id) (mkPoint timestamp m) := by
    simp [History.seq, History.get_set_self]
  refine ⟨_, recordReading_of_readable timestamp h m hr, ?_, ?_⟩
  · intro hlen
    rw [hseq, pushShift_of_length_ge _ _ (le_of_eq hlen.symm)]
    refine ⟨rfl, ?_⟩
    simp [hlen]
  · intro hlen
    rw [hseq, pushShift_of_length_lt _ _ hlen]

/-- The FIFO step on sample data: unit `A` holding 50 points (the oldest is
evicted) and holding 3 points (the new point is appended). -/
theorem fifo_eviction_step_sample :
    ∃ h50 h3 : History,
      recordReading "12:01:40" (sampleHistory 50) sampleReading = some h50 ∧
        h50.seq "A" = ((sampleHistory 50).seq "A").drop 1 ++ [mkPoint "12:01:40" sampleReading] ∧
        recordReading "12:00:06" (sampleHistory 3) sampleReading = some h3 ∧
        h3.seq "A" = (sampleHistory 3).seq "A" ++ [mkPoint "12:00:06" sampleReading] := by
  obtain ⟨h50, e50, a50, _⟩ := fifo_eviction_step "12:01:40" (sampleHistory 50) sampleReading
    (by decide)
  obtain ⟨h3, e3, _, a3⟩ := fifo_eviction_step "12:00:06" (sampleHistory 3) sampleReading
    (by decide)
  exact ⟨h50, h3, e50, (a50 (by decide)).1, e3, a3 (by decide)⟩

/-- C2, the code at the failing input. The unit `constructor` is not tracked, so
it holds 0 points, fewer than 50; yet recording a reading for it throws (the
read `newHistory["constructor"]` finds the inherited `Object`, which is truthy
and cannot be spread), and after `processData` its sequence is still empty
instead of holding the new point. -/
theorem constructor_point_not_appended :
    (History.seq [] constructorReading.machine_id).length < 50 ∧
      History.read [] "constructor" = PropertyValue.inherited ∧
      recordReading "12:00:00" [] constructorReading = none ∧
      (processData [constructorReading] false "12:00:00" AppState.init).history.seq "constructor"
        = [] ∧
      (processData [constructorReading] false "12:00:00" AppState.init).history.seq "constructor"
        ≠ History.seq [] "constructor" ++ [mkPoint "12:00:00" constructorReading] := by
  refine ⟨by decide, by decide, by decide, by decide, ?_⟩
  have h : (processData [constructorReading] false "12:00:00" AppState.init).history.seq
      "constructor" = [] := by decide
  rw [h]
  simp

theorem drop_append_drop (l r : List HistoryPoint) (k n : ℕ) (hk : k ≤ l.length) :
    (l.drop k ++ r).drop n = (l ++ r).drop (k + n) := by
  rw [← List.drop_drop, List.drop_append_of_le_length hk]

theorem pushShift_eq_drop (prevArr : List HistoryPoint) (p : HistoryPoint)
    (hlen : prevArr.length ≤ 50) :
    pushShift prevArr p = (prevArr ++ [p]).drop ((prevArr ++ [p]).length - 50) := by
  rcases Nat.lt_or_ge prevArr.length 50 with h1 | h1
  · rw [pushShift_of_length_lt _ _ h1]
    have : (prevArr ++ [p]).length - 50 = 0 := by simp; omega
    rw [this, List.drop_zero]
  · rw [pushShift_of_length_ge _ _ h1]
    have : (prevArr ++ [p]).length - 50 = 1 := by simp; omega
    rw [this, List.drop_append_of_le_length (by omega)]

theorem runTicks_history_single (s : AppState) (obs : List Observation) :
    (runTicks s (obs.map Observation.tick)).history = recordAll s.history obs := by
  unfold runTicks recordAll
  induction obs generalizing s with
  | nil => rfl
  | cons o rest ih =>
    simp only [List.map_cons, List.foldl_cons]
    rw [ih]
    have : (processData (Observation.tick o).data (Observation.tick o).synthetic
        (Observation.tick o).timestamp s).history
        = (recordReading o.2.2 s.history o.1).getD s.history := by
      show (updateHistory o.2.2 [o.1] s.history).getD s.history = _
      simp only [updateHistory]
      cases recordReading o.2.2 s.history o.1 <;> rfl
    rw [this]

theorem recordAll_seq (id : String) (obs : List Observation) (h : History)
    (hkey : id ∉ objectPrototypeKeys)
    (hlen : (h.seq id).length ≤ 50) (hid : ∀ o ∈ obs, o.1.machine_id = id) :
    (recordAll h obs).seq id
      = (h.seq id ++ obs.map Observation.point).drop
          ((h.seq id ++ obs.map Observation.point).length - 50) := by
  induction obs generalizing h with
  | nil =>
    have : (h.seq id).length - 50 = 0 := by omega
    simp [recordAll, this]
  | cons o rest ih =>
    have ho : o.1.machine_id = id := hid o (by simp)
    have hrest : ∀ o ∈ rest, o.1.machine_id = id := fun x hx => hid x (by simp [hx])
    have hrec : recordReading o.2.2 h o.1
        = some (h.set id (pushShift (h.seq id) (mkPoint o.2.2 o.1))) := by
      have := recordReading_of_readable o.2.2 h o.1
        (History.read_ne_inherited_of_not_mem h _ (by rw [ho]; exact hkey))
      rw [ho] at this
      exact this
    have hstep : ((recordReading o.2.2 h o.1).getD h).seq id
        = pushShift (h.seq id) (mkPoint o.2.2 o.1) := by
      rw [hrec]
      simp [History.seq, History.get_set_self]
    have hb : (((recordReading o.2.2 h o.1).getD h).seq id).length ≤ 50 := by
      rw [hstep]; exact pushShift_length_le _ _ hlen
    have := ih ((recordReading o.2.2 h o.1).getD h) hb hrest
    simp only [recordAll, List.foldl_cons] at this ⊢
    rw [this, hstep, pushShift_eq_drop _ _ hlen, drop_append_drop _ _ _ _ (by omega)]
    simp only [List.map_cons, Observation.point, List.append_assoc, List.singleton_append,
      List.length_append, List.length_cons, List.length_drop, List.length_map, List.length_nil]
    congr 1
    omega

/-- Single-reading ticks for one unit whose id is not the name of a member of
`Object.prototype`: from the empty history, the sequence of the unit is the
points of the last `min n 50` ticks in order; with 51 ticks it is the points of
ticks 2 to 51. -/
theorem same_unit_ticks_keep_last_50 (id : String) (obs : List Observation)
    (hkey : id ∉ objectPrototypeKeys) (hid : ∀ o ∈ obs, o.1.machine_id = id) :
    (runTicks AppState.init (obs.map Observation.tick)).history.seq id
        = (obs.map Observation.point).drop (obs.length - 50) ∧
      ((runTicks AppState.init (obs.map Observation.tick)).history.seq id).length
        = min obs.length 50 ∧
      (obs.length = 51 →
        ((runTicks AppState.init (obs.map Observation.tick)).history.seq id).length = 50 ∧
          (runTicks AppState.init (obs.map Observation.tick)).history.seq id
            = (obs.map Observation.point).tail) := by
  have hseq : (runTicks AppState.init (obs.map Observation.tick)).history.seq id
      = (obs.map Observation.point).drop (obs.length - 50) := by
    rw [runTicks_history_single,
      recordAll_seq id obs _ hkey (by simp [AppState.init, History.seq, History.get]) hid]
    simp [AppState.init, History.seq, History.get]
  refine ⟨hseq, ?_, ?_⟩
  · rw [hseq]; simp; omega
  · intro h51
    rw [hseq, h51]
    exact ⟨by simp [h51], by simp⟩

/-- The 51 sample ticks for unit `A` leave 50 points, those of ticks 2 to 51. -/
theorem same_unit_ticks_sample :
    ((runTicks AppState.init ((sampleObservations 51).map Observation.tick)).history.seq "A").length
        = 50 ∧
      (runTicks AppState.init ((sampleObservations 51).map Observation.tick)).history.seq "A"
        = ((sampleObservations 51).map Observation.point).tail :=
  (same_unit_ticks_keep_last_50 "A" (sampleObservations 51) (by decide) (by decide)).2.2
    (by decide)

theorem recordAll_constructor (obs : List Observation)
    (hid : ∀ o ∈ obs, o.1.machine_id = "constructor") : recordAll [] obs = [] := by
  unfold recordAll
  induction obs with
  | nil => rfl
  | cons o rest ih =>
    have ho : o.1.machine_id = "constructor" := hid o (by simp)
    have hrec : recordReading o.2.2 [] o.1 = none := by
      rw [recordReading_eq, ho]
      rfl
    rw [List.foldl_cons, hrec]
    exact ih (fun x hx => hid x (by simp [hx]))

/-- C3, the code at the failing input. From the empty history, after any number
of consecutive ticks that each carry one reading for the unit `constructor`, the
history is still empty: every tick throws in the updater.  After 51 such ticks
the sequence of the unit has length 0, not 50. -/
theorem constructor_ticks_store_nothing (n : ℕ) :
    (∀ o ∈ constructorObservations n, o.1.machine_id = "constructor") ∧
      (constructorObservations n).length = n ∧
      (runTicks AppState.init ((constructorObservations n).map Observation.tick)).history = [] ∧
      ((runTicks AppState.init ((constructorObservations 51).map Observation.tick)).history.seq
          "constructor").length = 0 ∧
      min (constructorObservations 51).length 50 = 50 := by
  have hid : ∀ k : ℕ, ∀ o ∈ constructorObservations k, o.1.machine_id = "constructor" := by
    intro k o ho
    simp only [constructorObservations, List.mem_map] at ho
    obtain ⟨i, _, rfl⟩ := ho
    rfl
  have hempty : ∀ k : ℕ,
      (runTicks AppState.init ((constructorObservations k).map Observation.tick)).history
        = [] := by
    intro k
    rw [runTicks_history_single]
    exact recordAll_constructor _ (hid k)
  refine ⟨hid n, by simp [constructorObservations], hempty n, ?_, ?_⟩
  · rw [hempty 51]
    rfl
  · simp [constructorObservations]

/-! ## Alerts, health counts and savings -/

theorem newAlerts_append (xs ys : List Reading) :
    newAlerts (xs ++ ys) = newAlerts xs ++ newAlerts ys := by
  simp [newAlerts]

theorem healthyCount_append (xs ys : List Reading) :
    healthyCount (xs ++ ys) = healthyCount xs + healthyCount ys := by
  simp [healthyCount]

theorem optimalRange_append (xs ys : List Reading) :
    optimalRange (xs ++ ys) = optimalRange xs + optimalRange ys := by
  simp [optimalRange]

/-- C4. For every snapshot and every prior state, the alert list left by
`processData` is the list of readings whose `failure_risk` is a number greater
than 0.4, in input order, each mapped to `{id, msg, risk}`; every alert in it
carries a risk above 0.4, and a reading at exactly 0.4 contributes no alert. -/
theorem alerts_are_readings_above_threshold (data : List Reading) (synthetic : Bool)
    (timestamp : String) (s : AppState) :
    (processData data synthetic timestamp s).alerts
        = data.filterMap (fun m =>
            match m.failure_risk with
            | some x => if x > 0.4 then
                some { id := m.machine_id, msg := m.message, risk := some x }
              else none
            | none => none) ∧
      (processData data synthetic timestamp s).alerts.all
          (fun a => a.risk.any (fun x => decide (x > 0.4))) = true ∧
      ∀ (pre post : List Reading) (m : Reading),
        (processData (pre ++ { m with failure_risk := some 0.4 } :: post)
            synthetic timestamp s).alerts
          = (processData pre synthetic timestamp s).alerts
              ++ (processData post synthetic timestamp s).alerts := by
  refine ⟨?_, ?_, ?_⟩
  · show newAlerts data = _
    unfold newAlerts
    induction data with
    | nil => rfl
    | cons m rest ih =>
      cases hfr : m.failure_risk with
      | none => simp [List.filter_cons, List.filterMap_cons, jsGt, hfr, ← ih]
      | some x =>
        by_cases hx : x > 0.4
        · simp [List.filter_cons, List.filterMap_cons, jsGt, hfr, hx, ← ih]
        · simp [List.filter_cons, List.filterMap_cons, jsGt, hfr, hx, ← ih]
  · show (newAlerts data).all _ = true
    rw [List.all_eq_true]
    intro a ha
    simp only [newAlerts, List.mem_map, List.mem_filter] at ha
    obtain ⟨m, ⟨_, hm⟩, rfl⟩ := ha
    cases hfr : m.failure_risk with
    | none => simp [jsGt, hfr] at hm
    | some x => simpa [jsGt, hfr] using hm
  · intro pre post m
    show newAlerts _ = newAlerts pre ++ newAlerts post
    rw [newAlerts_append]
    congr 1
    simp [newAlerts, List.filter_cons, jsGt]

/-- C5. For every snapshot, `healthyCount` is the number of readings whose
`failure_risk` is a number at most 0.4 (the savings state is 125.5 times that
number), and a reading at exactly 0.4 is counted. -/
theorem healthyCount_counts_at_most_threshold (data : List Reading) (synthetic : Bool)
    (timestamp : String) (s : AppState) :
    healthyCount data
        = data.countP (fun m => m.failure_risk.any (fun x => decide (x ≤ 0.4))) ∧
      (processData data synthetic timestamp s).energySavings
        = 125.5 * (data.countP (fun m => m.failure_risk.any (fun x => decide (x ≤ 0.4))) : ℚ) ∧
      ∀ (pre post : List Reading) (m : Reading),
        healthyCount (pre ++ { m with failure_risk := some 0.4 } :: post)
          = healthyCount pre + 1 + healthyCount post := by
  have h1 : healthyCount data
      = data.countP (fun m => m.failure_risk.any (fun x => decide (x ≤ 0.4))) := by
    unfold healthyCount
    rw [List.countP_eq_length_filter]
    congr 2
    funext m
    cases hfr : m.failure_risk <;> simp [jsLe]
  refine ⟨h1, ?_, ?_⟩
  · show (healthyCount data : ℚ) * 125.5 = _
    rw [h1, mul_comm]
  · intro pre post m
    rw [healthyCount_append]
    simp [healthyCount, List.filter_cons, jsLe]
    omega

/-- C6. After a tick the optimal-units statistic is the number of readings of
the snapshot whose `failure_risk` is a number strictly below 0.3; a reading with
`0.3 ≤ failure_risk ≤ 0.4` (0.3 itself included) adds one to `healthyCount` and
nothing to the optimal count, wherever it stands in the snapshot. -/
theorem optimalRange_counts_below_point_three (data : List Reading) (synthetic : Bool)
    (timestamp : String) (s : AppState) (m : Reading) (x : ℚ)
    (hm : m.failure_risk = some x) (hlo : 0.3 ≤ x) (hhi : x ≤ 0.4) :
    optimalRange (processData data synthetic timestamp s).machines
        = data.countP (fun r => r.failure_risk.any (fun v => decide (v < 0.3))) ∧
      ∀ pre post : List Reading,
        optimalRange (pre ++ m :: post) = optimalRange pre + optimalRange post ∧
          healthyCount (pre ++ m :: post) = healthyCount pre + 1 + healthyCount post := by
  constructor
  · show optimalRange data = _
    unfold optimalRange
    rw [List.countP_eq_length_filter]
    congr 2
    funext r
    cases hfr : r.failure_risk <;> simp [jsLt]
  · intro pre post
    have hnot : ¬ x < 0.3 := not_lt.mpr hlo
    rw [optimalRange_append, healthyCount_append]
    constructor
    · simp [optimalRange, List.filter_cons, jsLt, hm, hnot]
    · simp [healthyCount, List.filter_cons, jsLe, hm, hhi]
      omega

/-- Witness for C6: a reading at exactly 0.3 is healthy and not optimal. -/
theorem optimalRange_counts_below_point_three_witness :
    boundaryReading.failure_risk = some 0.3 ∧ (0.3 : ℚ) ≤ 0.3 ∧ (0.3 : ℚ) ≤ 0.4 ∧
      (optimalRange
          (processData [sampleReading, boundaryReading] false "12:00:00" AppState.init).machines
        = [sampleReading, boundaryReading].countP
            (fun r => r.failure_risk.any (fun v => decide (v < 0.3))) ∧
        ∀ pre post : List Reading,
          optimalRange (pre ++ boundaryReading :: post) = optimalRange pre + optimalRange post ∧
            healthyCount (pre ++ boundaryReading :: post)
              = healthyCount pre + 1 + healthyCount post) :=
  ⟨rfl, le_refl _, by norm_num,
    optimalRange_counts_below_point_three [sampleReading, boundaryReading] false "12:00:00"
      AppState.init boundaryReading 0.3 rfl (le_refl _) (by norm_num)⟩

/-- C7. After every tick the savings value is exactly 125.5 times the
`healthyCount` of that tick's snapshot (twice the savings is the integer
`251 * healthyCount`), it is the same whatever the state before the tick, and
every non-negative count `n` is covered: a snapshot of `n` healthy readings
gives `n * 125.5`. -/
theorem energySavings_is_healthyCount_times_125_5 (data : List Reading) (synthetic : Bool)
    (timestamp : String) (s : AppState) :
    (processData data synthetic timestamp s).energySavings = 125.5 * (healthyCount data : ℚ) ∧
      2 * (processData data synthetic timestamp s).energySavings
        = ((251 * healthyCount data : ℕ) : ℚ) ∧
      (∀ (synthetic2 : Bool) (timestamp2 : String) (s2 : AppState),
        (processData data synthetic2 timestamp2 s2).energySavings
          = (processData data synthetic timestamp s).energySavings) ∧
      ∀ (n : ℕ) (m : Reading),
        (processData (List.replicate n { m with failure_risk := some 0.4 })
            synthetic timestamp s).energySavings = (n : ℚ) * 125.5 := by
  refine ⟨?_, ?_, ?_, ?_⟩
  · show (healthyCount data : ℚ) * 125.5 = _
    rw [mul_comm]
  · show 2 * ((healthyCount data : ℚ) * 125.5) = _
    push_cast
    norm_num
    ring
  · intro _ _ _
    rfl
  · intro n m
    show (healthyCount _ : ℚ) * 125.5 = _
    congr 2
    simp [healthyCount, List.filter_replicate, jsLe]

/-! ## The synthetic generator -/

theorem le_roundHalfAway (k : ℤ) (y : ℚ) (h0 : 0 ≤ y) (h : (k : ℚ) ≤ y) :
    k ≤ roundHalfAway y := by
  unfold roundHalfAway
  rw [if_pos h0, Int.le_floor]
  linarith

theorem roundHalfAway_le (k : ℤ) (y : ℚ) (h0 : 0 ≤ y) (h : y ≤ (k : ℚ)) :
    roundHalfAway y ≤ k := by
  unfold roundHalfAway
  rw [if_pos h0, ← Int.lt_add_one_iff, Int.floor_lt]
  push_cast
  linarith

theorem le_toFixed (k : ℤ) (x : ℚ) (d : ℕ) (h0 : 0 ≤ x) (h : (k : ℚ) ≤ x * 10 ^ d) :
    (k : ℚ) / 10 ^ d ≤ toFixed x d := by
  unfold toFixed
  have hk : k ≤ roundHalfAway (x * 10 ^ d) := le_roundHalfAway k _ (by positivity) h
  have hk2 : (k : ℚ) ≤ (roundHalfAway (x * 10 ^ d) : ℚ) := by exact_mod_cast hk
  exact div_le_div_of_nonneg_right hk2 (by positivity)

theorem toFixed_le (k : ℤ) (x : ℚ) (d : ℕ) (h0 : 0 ≤ x) (h : x * 10 ^ d ≤ (k : ℚ)) :
    toFixed x d ≤ (k : ℚ) / 10 ^ d := by
  unfold toFixed
  have hk : roundHalfAway (x * 10 ^ d) ≤ k := roundHalfAway_le k _ (by positivity) h
  have hk2 : (roundHalfAway (x * 10 ^ d) : ℚ) ≤ (k : ℚ) := by exact_mod_cast hk
  exact div_le_div_of_nonneg_right hk2 (by positivity)

theorem synRisk_bounds (M : JsMath) (d : Draws) (t : ℤ) :
    0.02 ≤ synRisk M d t ∧ synRisk M d t ≤ 0.95 := by
  unfold synRisk
  refine ⟨le_min (by norm_num) (le_max_left _ _), min_le_left _ _⟩

/-- C8. For every tick `t` (any integer), every value of the sine and cosine
and every outcome of the five random draws, the clamped risk lies in
`[0.02, 0.95]`, and so does the `failure_risk` of the returned reading, which is
that risk rounded to 3 decimals. -/
theorem synthetic_failure_risk_in_range (M : JsMath) (now : String) (d : Draws) (t : ℤ) :
    (0.02 ≤ synRisk M d t ∧ synRisk M d t ≤ 0.95) ∧
      (generateSyntheticMachine M now d t).failure_risk = some (toFixed (synRisk M d t) 3) ∧
      ∃ x : ℚ, (generateSyntheticMachine M now d t).failure_risk = some x ∧
        0.02 ≤ x ∧ x ≤ 0.95 := by
  obtain ⟨hlo, hhi⟩ := synRisk_bounds M d t
  have h0 : 0 ≤ synRisk M d t := le_trans (by norm_num) hlo
  refine ⟨⟨hlo, hhi⟩, rfl, toFixed (synRisk M d t) 3, rfl, ?_, ?_⟩
  · have := le_toFixed 20 (synRisk M d t) 3 h0 (by norm_num at hlo ⊢; linarith)
    norm_num at this ⊢
    linarith
  · have := toFixed_le 950 (synRisk M d t) 3 h0 (by norm_num at hhi ⊢; linarith)
    norm_num at this ⊢
    linarith

/-- C9. For every tick and every random draw, the reading returned by
`generateSyntheticMachine` has `machine_id` equal to `M01` and `source` equal to
`SYNTHETIC`. -/
theorem synthetic_reading_is_M01_synthetic (M : JsMath) (now : String) (d : Draws) (t : ℤ) :
    (generateSyntheticMachine M now d t).machine_id = "M01" ∧
      (generateSyntheticMachine M now d t).source = some "SYNTHETIC" :=
  ⟨rfl, rfl⟩

theorem isPrefixOf_append_true (p q r : List Char) (h : p.isPrefixOf q = true) :
    p.isPrefixOf (q ++ r) = true := by
  rw [List.isPrefixOf_iff_prefix] at h ⊢
  exact h.trans (List.prefix_append q r)

theorem isPrefixOf_append_false (p q r : List Char) (h : p.isPrefixOf q = false)
    (hlen : p.length ≤ q.length) : p.isPrefixOf (q ++ r) = false := by
  rw [Bool.eq_false_iff] at h ⊢
  intro hp
  apply h
  rw [List.isPrefixOf_iff_prefix] at hp ⊢
  exact List.prefix_of_prefix_length_le hp (List.prefix_append q r) hlen

theorem messageLevel_criticalMessage (risk : ℚ) :
    messageLevel (criticalMessage risk) = some Level.critical := by
  unfold messageLevel criticalMessage
  rw [String.data_append, String.data_append, List.append_assoc,
    if_pos (isPrefixOf_append_true _ _ _ (by decide))]

theorem messageLevel_warningMessage (risk : ℚ) :
    messageLevel (warningMessage risk) = some Level.warning := by
  unfold messageLevel warningMessage
  rw [String.data_append, String.data_append, List.append_assoc,
    if_neg (by rw [isPrefixOf_append_false _ _ _ (by decide) (by decide)]; simp),
    if_pos (isPrefixOf_append_true _ _ _ (by decide))]

theorem messageLevel_optimalMessage (risk : ℚ) :
    messageLevel (optimalMessage risk) = some Level.optimal := by
  unfold messageLevel optimalMessage
  rw [String.data_append, String.data_append, List.append_assoc,
    if_neg (by rw [isPrefixOf_append_false _ _ _ (by decide) (by decide)]; simp),
    if_neg (by rw [isPrefixOf_append_false _ _ _ (by decide) (by decide)]; simp),
    if_pos (isPrefixOf_append_true _ _ _ (by decide))]

theorem synthetic_level (M : JsMath) (now : String) (d : Draws) (t : ℤ) :
    (generateSyntheticMachine M now d t).level
      = some (if synRisk M d t > 0.8 then Level.critical
          else if synRisk M d t > 0.4 then Level.warning else Level.optimal) := by
  show messageLevel (synMessage (synRisk M d t)) = _
  unfold synMessage
  split_ifs
  · exact messageLevel_criticalMessage _
  · exact messageLevel_warningMessage _
  · exact messageLevel_optimalMessage _

/-- C10, counterexample. At tick 5 with the risk draw at 0.46 the unrounded risk
lies strictly between 0.4 and 0.4005: the reading carries the WARNING message
while its `failure_risk` is exactly 0.4, so the message does not match the
thresholds applied to `failure_risk`, and the reading raises no alert in
`processData` although its message is not the OPTIMAL one. -/
theorem borderline_message_mismatch :
    borderlineReading.message = some "⚠️ WARNING: Risk 40%." ∧
      borderlineReading.level = some Level.warning ∧
      borderlineReading.failure_risk = some 0.4 ∧
      (processData [borderlineReading] true "00:00:10" AppState.init).alerts = [] ∧
      ¬ MessageMatchesFailureRisk borderlineReading := by
  have h1 : borderlineReading.message = some "⚠️ WARNING: Risk 40%." := by decide!
  have h2 : borderlineReading.level = some Level.warning := by decide!
  have h3 : borderlineReading.failure_risk = some 0.4 := by decide!
  have h4 : newAlerts [borderlineReading] = [] := by decide!
  refine ⟨h1, h2, h3, h4, ?_⟩
  intro h
  have h5 := h.2.1.mp h2
  rw [h3] at h5
  simp [jsGt] at h5

/-- C10, amended. The message of a synthetic reading follows the thresholds
applied to the unrounded clamped risk, of which `failure_risk` is the rounding
to 3 decimals: CRITICAL iff that risk is above 0.8, WARNING iff it is above 0.4
and at most 0.8, OPTIMAL iff it is at most 0.4.  Consequently a synthetic
reading that raises an alert in `processData` does not carry the OPTIMAL
message, and one that carries the OPTIMAL message raises no alert. -/
theorem synthetic_message_follows_unrounded_risk (M : JsMath) (now : String) (d : Draws)
    (t : ℤ) (synthetic : Bool) (timestamp : String) (s : AppState) :
    ((generateSyntheticMachine M now d t).level = some Level.critical ↔ synRisk M d t > 0.8) ∧
      ((generateSyntheticMachine M now d t).level = some Level.warning ↔
        (synRisk M d t > 0.4 ∧ synRisk M d t ≤ 0.8)) ∧
      ((generateSyntheticMachine M now d t).level = some Level.optimal ↔ synRisk M d t ≤ 0.4) ∧
      (generateSyntheticMachine M now d t).failure_risk = some (toFixed (synRisk M d t) 3) ∧
      ((processData [generateSyntheticMachine M now d t] synthetic timestamp s).alerts ≠ [] →
        (generateSyntheticMachine M now d t).level ≠ some Level.optimal) ∧
      ((generateSyntheticMachine M now d t).level = some Level.optimal →
        (processData [generateSyntheticMachine M now d t] synthetic timestamp s).alerts = []) := by
  have hlev := synthetic_level M now d t
  have h0 : 0 ≤ synRisk M d t := le_trans (by norm_num) (synRisk_bounds M d t).1
  have hopt : (generateSyntheticMachine M now d t).level = some Level.optimal ↔
      synRisk M d t ≤ 0.4 := by
    rw [hlev]
    split_ifs with h1 h2
    · have : ¬ synRisk M d t ≤ 0.4 := by
        intro h; norm_num at h h1; linarith
      simp [this]
    · simp [not_le.mpr h2]
    · simp [not_lt.mp h2]
  have hno : synRisk M d t ≤ 0.4 →
      (processData [generateSyntheticMachine M now d t] synthetic timestamp s).alerts = [] := by
    intro h
    show newAlerts [generateSyntheticMachine M now d t] = []
    have hfix := toFixed_le 400 (synRisk M d t) 3 h0 (by norm_num at h ⊢; linarith)
    have hnot : ¬ toFixed (synRisk M d t) 3 > 0.4 := by
      norm_num at hfix ⊢
      linarith
    simp [newAlerts, List.filter_cons, jsGt, generateSyntheticMachine, hnot]
  refine ⟨?_, ?_, hopt, rfl, ?_, ?_⟩
  · rw [hlev]
    split_ifs with h1 h2
    · simp [h1]
    · simp [h1]
    · simp [h1]
  · rw [hlev]
    split_ifs with h1 h2
    · have : ¬ synRisk M d t ≤ 0.8 := not_le.mpr h1
      simp [this]
    · simp [h2, not_lt.mp h1]
    · simp [h2]
  · intro hal hl
    exact hal (hno (hopt.mp hl))
  · intro hl
    exact hno (hopt.mp hl)

/-! ## The polling effect -/

theorem syntheticFallback_fields (e : TickInputs) (s : AppState) :
    (syntheticFallback e s).apiOnline = s.apiOnline ∧
      (syntheticFallback e s).isSynthetic = true ∧
      (syntheticFallback e s).syntheticTick = s.syntheticTick + 1 ∧
      (syntheticFallback e s).machines
        = [generateSyntheticMachine e.math e.now e.draws (s.syntheticTick + 1)] :=
  ⟨rfl, rfl, rfl, rfl⟩

/-- C11. Empty-result tick: when the fetch resolves and the body decodes to the
empty array (whatever the status), the tick ends with `apiOnline = true` and
`isSynthetic = true`, and the snapshot is exactly one reading, the synthetic one
generated for the incremented tick counter, with `machine_id` `M01` and source
`SYNTHETIC`. -/
theorem empty_result_tick (e : TickInputs) (status : ℕ) (s : AppState) :
    (pollTick e (FetchOutcome.response status (Body.json (JsonValue.array []))) s).apiOnline
        = true ∧
      (pollTick e (FetchOutcome.response status (Body.json (JsonValue.array []))) s).isSynthetic
        = true ∧
      (pollTick e (FetchOutcome.response status (Body.json (JsonValue.array []))) s).machines
        = [generateSyntheticMachine e.math e.now e.draws (s.syntheticTick + 1)] ∧
      (pollTick e (FetchOutcome.response status (Body.json (JsonValue.array []))) s).machines.length
        = 1 ∧
      (pollTick e (FetchOutcome.response status (Body.json (JsonValue.array []))) s).machines.map
          (fun r => (r.machine_id, r.source)) = [("M01", some "SYNTHETIC")] :=
  ⟨rfl, rfl, rfl, rfl, rfl⟩

/-- C12. Failed-fetch tick: when the fetch rejects, and likewise when the body
of a response is not JSON, the tick ends with `apiOnline = false` and
`isSynthetic = true`, the snapshot is the one synthetic reading for unit `M01`,
and the synthetic tick counter is its prior value plus 1. -/
theorem failed_fetch_tick (e : TickInputs) (s : AppState) :
    ((pollTick e FetchOutcome.rejected s).apiOnline = false ∧
        (pollTick e FetchOutcome.rejected s).isSynthetic = true ∧
        (pollTick e FetchOutcome.rejected s).machines
          = [generateSyntheticMachine e.math e.now e.draws (s.syntheticTick + 1)] ∧
        (pollTick e FetchOutcome.rejected s).machines.map (fun r => (r.machine_id, r.source))
          = [("M01", some "SYNTHETIC")] ∧
        (pollTick e FetchOutcome.rejected s).syntheticTick = s.syntheticTick + 1) ∧
      ∀ status : ℕ,
        (pollTick e (FetchOutcome.response status Body.notJson) s).apiOnline = false ∧
          (pollTick e (FetchOutcome.response status Body.notJson) s).isSynthetic = true ∧
          (pollTick e (FetchOutcome.response status Body.notJson) s).machines
            = [generateSyntheticMachine e.math e.now e.draws (s.syntheticTick + 1)] ∧
          (pollTick e (FetchOutcome.response status Body.notJson) s).syntheticTick
            = s.syntheticTick + 1 :=
  ⟨⟨rfl, rfl, rfl, rfl, rfl⟩, fun _ => ⟨rfl, rfl, rfl, rfl⟩⟩

/-- C13. Live tick: when the fetch resolves with a non-empty array `r :: rest`,
the tick ends with `apiOnline = true` and `isSynthetic = false`, the snapshot is
the received array itself (so every `failure_risk` is the received one, with no
clamp), and the synthetic tick counter is untouched. -/
theorem live_tick (e : TickInputs) (status : ℕ) (r : Reading) (rest : List Reading)
    (s : AppState) :
    (pollTick e (FetchOutcome.response status (Body.json (JsonValue.array (r :: rest)))) s).apiOnline
        = true ∧
      (pollTick e (FetchOutcome.response status (Body.json (JsonValue.array (r :: rest)))) s).isSynthetic
        = false ∧
      (pollTick e (FetchOutcome.response status (Body.json (JsonValue.array (r :: rest)))) s).machines
        = r :: rest ∧
      ((pollTick e (FetchOutcome.response status (Body.json (JsonValue.array (r :: rest)))) s).machines.map
          (fun m => m.failure_risk)) = (r :: rest).map (fun m => m.failure_risk) ∧
      (pollTick e (FetchOutcome.response status (Body.json (JsonValue.array (r :: rest)))) s).syntheticTick
        = s.syntheticTick ∧
      (pollTick e (FetchOutcome.response status (Body.json (JsonValue.array [unclampedReading]))) s).machines.map
          (fun m => m.failure_risk) = [some 1.5] := by
  have h : pollTick e (FetchOutcome.response status (Body.json (JsonValue.array (r :: rest)))) s
      = processData (r :: rest) false e.label { s with apiOnline := true } := by
    simp [pollTick, onData]
  rw [h]
  exact ⟨rfl, rfl, rfl, rfl, rfl, rfl⟩

/-- C14, the code at the failing input. A response with status 500 is a
`FetchError` for the specification, yet with a JSON body the tick ends with
`apiOnline = true`: the effect never reads the status.  With a body that is not
an array (or is the empty array) the tick falls back to synthetic data, and
with a non-empty array it ingests the body as live data. -/
theorem http_error_status_keeps_apiOnline (e : TickInputs) (s : AppState) :
    specFetchError (FetchOutcome.response 500 (Body.json JsonValue.other)) = true ∧
      specEmptyResult (FetchOutcome.response 500 (Body.json JsonValue.other)) = false ∧
      (pollTick e (FetchOutcome.response 500 (Body.json JsonValue.other)) s).apiOnline = true ∧
      (pollTick e (FetchOutcome.response 500 (Body.json JsonValue.other)) s).isSynthetic = true ∧
      (pollTick e (FetchOutcome.response 500 (Body.json (JsonValue.array []))) s).apiOnline
        = true ∧
      (pollTick e (FetchOutcome.response 500 (Body.json (JsonValue.array [sampleReading]))) s).apiOnline
        = true ∧
      (pollTick e (FetchOutcome.response 500 (Body.json (JsonValue.array [sampleReading]))) s).isSynthetic
        = false := by
  refine ⟨by decide, by decide, rfl, rfl, rfl, ?_, ?_⟩
  · simp [pollTick, onData, processData]
  · simp [pollTick, onData, processData]

/-! ## Derivation of the history point -/

theorem jsOr_chain (a b : Option ℚ) :
    (jsOr (jsOr a b) (some 0)).getD 0 = fallbackValue a b := by
  cases a with
  | none =>
    cases b with
    | none => simp [jsOr, fallbackValue]
    | some y =>
      by_cases hy : y = 0
      · simp [jsOr, fallbackValue, hy]
      · simp [jsOr, fallbackValue, hy]
  | some x =>
    by_cases hx : x = 0
    · cases b with
      | none => simp [jsOr, fallbackValue, hx]
      | some y =>
        by_cases hy : y = 0
        · simp [jsOr, fallbackValue, hx, hy]
        · simp [jsOr, fallbackValue, hx, hy]
    · cases b with
      | none => simp [jsOr, fallbackValue, hx]
      | some y => simp [jsOr, fallbackValue, hx]

/-- C15, counterexample. A reading with `temperature` 0 and `avg_temp` 25 gets
the point temperature 25, not the 0 of its `temperature` field. -/
theorem zero_temperature_falls_back :
    zeroTempReading.temperature = some 0 ∧
      (mkPoint "12:00:00" zeroTempReading).temperature = 25 ∧
      (mkPoint "12:00:00" zeroTempReading).temperature
        ≠ toFixed (presenceFallback zeroTempReading.temperature zeroTempReading.avg_temp) 1 := by
  decide!

/-- C15, amended. For every reading, the point's temperature is the `toFixed(1)`
of the double of: the `temperature` field when it is present and non-zero, otherwise the
`avg_temp` field when it is present, otherwise 0; the same chain gives vibration
(3 decimals), humidity (1 decimal) and rssi (`parseInt`).  The chain differs from
the presence-based one only when the first field is 0 and the second is a
non-zero number. -/
theorem point_fields_follow_truthy_fallback (timestamp : String) (m : Reading) :
    (mkPoint timestamp m).temperature
        = toFixed (toDouble (fallbackValue m.temperature m.avg_temp)) 1 ∧
      (mkPoint timestamp m).vibration
        = toFixed (toDouble (fallbackValue m.vibration m.avg_vibration)) 3 ∧
      (mkPoint timestamp m).humidity
        = toFixed (toDouble (fallbackValue m.humidity m.avg_humidity)) 1 ∧
      (mkPoint timestamp m).rssi = parseIntNum (fallbackValue m.signal_strength m.avg_rssi) ∧
      ∀ a b : Option ℚ,
        fallbackValue a b = presenceFallback a b ∨
          (a = some 0 ∧ ∃ y : ℚ, b = some y ∧ y ≠ 0 ∧ fallbackValue a b = y) := by
  refine ⟨?_, ?_, ?_, ?_, ?_⟩
  · simp [mkPoint, jsOr_chain]
  · simp [mkPoint, jsOr_chain]
  · simp [mkPoint, jsOr_chain]
  · simp [mkPoint, jsOr_chain]
  · intro a b
    cases a with
    | none => cases b <;> simp [fallbackValue, presenceFallback]
    | some x =>
      cases b with
      | none => simp [fallbackValue, presenceFallback]
      | some y =>
        by_cases hx : x = 0
        · by_cases hy : y = 0
          · simp [fallbackValue, presenceFallback, hx, hy]
          · right
            simp [fallbackValue, hx, hy]
        · simp [fallbackValue, presenceFallback, hx]

/-- C16, the code at the failing input. For a reading without any numeric field
the stored point has temperature, vibration, humidity and rssi 0, but its risk
is the text `NaN` (here `none`), not 0: the risk line has no `|| 0`. -/
theorem bare_reading_point_risk_is_NaN :
    mkPoint "12:00:00" bareReading
        = { time := "12:00:00", temperature := 0, vibration := 0, humidity := 0, rssi := 0,
            risk := none } ∧
      ((processData [bareReading] false "12:00:00" AppState.init).history.seq "M07").map
          (fun p => p.risk) = [none] := by
  decide!

theorem roundHalfAway_near (y : ℚ) : |(roundHalfAway y : ℚ) - y| ≤ 1 / 2 := by
  unfold roundHalfAway
  rw [abs_le]
  split_ifs with h
  · have h1 := Int.floor_le (y + 1 / 2)
    have h2 := Int.lt_floor_add_one (y + 1 / 2)
    constructor <;> linarith
  · have h1 := Int.floor_le (-y + 1 / 2)
    have h2 := Int.lt_floor_add_one (-y + 1 / 2)
    push_cast
    constructor <;> linarith

theorem roundHalfAway_between (k1 k2 : ℤ) (y : ℚ) (h1 : (k1 : ℚ) - 1 / 2 < y)
    (h2 : y < (k2 : ℚ) + 1 / 2) : k1 ≤ roundHalfAway y ∧ roundHalfAway y ≤ k2 := by
  unfold roundHalfAway
  split_ifs with h
  · constructor
    · rw [Int.le_floor]
      linarith
    · rw [← Int.lt_add_one_iff, Int.floor_lt]
      push_cast
      linarith
  · constructor
    · have : ⌊-y + 1 / 2⌋ < -k1 + 1 := by
        rw [Int.floor_lt]
        push_cast
        linarith
      omega
    · have : -k2 ≤ ⌊-y + 1 / 2⌋ := by
        rw [Int.le_floor]
        push_cast
        linarith
      omega

theorem synthetic_failure_risk_bounds (M : JsMath) (d : Draws) (t : ℤ) :
    0.02 ≤ toFixed (synRisk M d t) 3 ∧ toFixed (synRisk M d t) 3 ≤ 0.95 := by
  obtain ⟨hlo, hhi⟩ := synRisk_bounds M d t
  have h0 : 0 ≤ synRisk M d t := le_trans (by norm_num) hlo
  constructor
  · have := le_toFixed 20 (synRisk M d t) 3 h0 (by norm_num at hlo ⊢; linarith)
    norm_num at this ⊢
    linarith
  · have := toFixed_le 950 (synRisk M d t) 3 h0 (by norm_num at hhi ⊢; linarith)
    norm_num at this ⊢
    linarith

/-! ### Double precision -/

theorem log2Aux_eq (fuel n : ℕ) (h : n ≤ fuel) : log2Aux fuel n = Nat.log2 n := by
  induction fuel generalizing n with
  | zero =>
    have : n = 0 := by omega
    subst this
    rw [Nat.log2]
    simp [log2Aux]
  | succ f ih =>
    rw [Nat.log2, log2Aux]
    by_cases h2 : 2 ≤ n
    · have : n / 2 ≤ f := by omega
      simp [h2, ih _ this]
    · simp [h2]

theorem binaryLog_eq (n : ℕ) : binaryLog n = Nat.log2 n :=
  log2Aux_eq n n (le_refl _)

theorem twoPow_eq (e : ℤ) : twoPow e = (2 : ℚ) ^ e := by
  unfold twoPow
  split_ifs with h
  · obtain ⟨n, rfl⟩ := Int.eq_ofNat_of_zero_le h
    simp
  · have hneg : 0 ≤ -e := by omega
    obtain ⟨n, hn⟩ := Int.eq_ofNat_of_zero_le hneg
    have he : e = -(n : ℤ) := by omega
    subst he
    simp

theorem binaryExponent_le (x : ℚ) (hx : x ≠ 0) : (2 : ℚ) ^ binaryExponent x ≤ |x| := by
  unfold binaryExponent
  simp only [binaryLog_eq, twoPow_eq]
  split_ifs with h
  · exact h
  · have hnum : x.num.natAbs ≠ 0 := by
      simpa using hx
    have h1 : (2 : ℚ) ^ (Nat.log2 x.num.natAbs) ≤ (x.num.natAbs : ℚ) := by
      exact_mod_cast Nat.log2_self_le hnum
    have h2 : (x.den : ℚ) < (2 : ℚ) ^ (Nat.log2 x.den + 1) := by
      exact_mod_cast (Nat.lt_log2_self : x.den < 2 ^ (Nat.log2 x.den + 1))
    have habs : |x| = (x.num.natAbs : ℚ) / (x.den : ℚ) := by
      conv_lhs => rw [← Rat.num_div_den x]
      rw [abs_div, Nat.abs_cast, Int.cast_natAbs, Int.cast_abs]
    have hdpos : (0 : ℚ) < (x.den : ℚ) := by exact_mod_cast x.den_pos
    rw [habs, le_div_iff₀ hdpos]
    have e1 : (2 : ℚ) ^ ((Nat.log2 x.num.natAbs : ℤ) - (Nat.log2 x.den : ℤ) - 1)
        = (2 : ℚ) ^ (Nat.log2 x.num.natAbs) / (2 : ℚ) ^ (Nat.log2 x.den + 1) := by
      rw [show ((Nat.log2 x.num.natAbs : ℤ) - (Nat.log2 x.den : ℤ) - 1)
          = (Nat.log2 x.num.natAbs : ℤ) - ((Nat.log2 x.den + 1 : ℕ) : ℤ) by push_cast; ring,
        zpow_sub₀ (by norm_num), zpow_natCast, zpow_natCast]
    rw [e1, div_mul_eq_mul_div, div_le_iff₀ (by positivity)]
    calc (2 : ℚ) ^ (Nat.log2 x.num.natAbs) * (x.den : ℚ)
        ≤ (x.num.natAbs : ℚ) * (x.den : ℚ) := by
          exact mul_le_mul_of_nonneg_right h1 hdpos.le
      _ ≤ (x.num.natAbs : ℚ) * (2 : ℚ) ^ (Nat.log2 x.den + 1) := by
          exact mul_le_mul_of_nonneg_left h2.le (by positivity)

theorem roundHalfEven_near (y : ℚ) : |(roundHalfEven y : ℚ) - y| ≤ 1 / 2 := by
  have h1 := Int.floor_le y
  have h2 := Int.lt_floor_add_one y
  unfold roundHalfEven
  rw [abs_le]
  split_ifs with a b c
  · constructor <;> linarith
  · push_cast; constructor <;> linarith
  · constructor <;> linarith
  · push_cast
    have : y - ⌊y⌋ = 1 / 2 := le_antisymm (not_lt.mp b) (not_lt.mp a)
    constructor <;> linarith

theorem toDouble_error (x : ℚ) (j : ℤ) (hj : -1022 ≤ j) (hx : |x| ≤ (2 : ℚ) ^ j) :
    |toDouble x - x| ≤ (2 : ℚ) ^ (j - 53) := by
  unfold toDouble
  split_ifs with h0
  · subst h0
    simp
    positivity
  · simp only [twoPow_eq]
    have hb : binaryExponent x ≤ j := by
      have := le_trans (binaryExponent_le x h0) hx
      exact (zpow_le_zpow_iff_right₀ (by norm_num : (1 : ℚ) < 2)).mp this
    have he : max (binaryExponent x) (-1022) ≤ j := max_le hb hj
    set e := max (binaryExponent x) (-1022) with he_def
    have hu : (0 : ℚ) < (2 : ℚ) ^ (e - 52) := by positivity
    have hnear := roundHalfEven_near (x / (2 : ℚ) ^ (e - 52))
    have hmul : |(roundHalfEven (x / (2 : ℚ) ^ (e - 52)) : ℚ) * (2 : ℚ) ^ (e - 52) - x|
        = |(roundHalfEven (x / (2 : ℚ) ^ (e - 52)) : ℚ) - x / (2 : ℚ) ^ (e - 52)|
          * (2 : ℚ) ^ (e - 52) := by
      rw [← abs_of_pos hu, ← abs_mul, abs_of_pos hu, sub_mul, div_mul_cancel₀ _ hu.ne']
    rw [hmul]
    calc |(roundHalfEven (x / (2 : ℚ) ^ (e - 52)) : ℚ) - x / (2 : ℚ) ^ (e - 52)|
          * (2 : ℚ) ^ (e - 52)
        ≤ 1 / 2 * (2 : ℚ) ^ (e - 52) := mul_le_mul_of_nonneg_right hnear hu.le
      _ = (2 : ℚ) ^ (e - 53) := by
          rw [show e - 52 = (e - 53) + 1 by ring, zpow_add₀ (by norm_num), zpow_one]
          ring
      _ ≤ (2 : ℚ) ^ (j - 53) := zpow_le_zpow_right₀ (by norm_num) (by omega)

/-- The double product `x * 100` is within `2 ^ (-45)` of the exact product
when `0 ≤ x ≤ 1`. -/
theorem double_product_near (x : ℚ) (h0 : 0 ≤ x) (h1 : x ≤ 1) :
    |toDouble (toDouble x * 100) - x * 100| ≤ 1 / 2 ^ 45 := by
  have hx : |x| ≤ (2 : ℚ) ^ (0 : ℤ) := by
    rw [abs_of_nonneg h0]
    simpa using h1
  have hd := toDouble_error x 0 (by norm_num) hx
  have hd' : |toDouble x - x| ≤ 1 / 2 ^ 53 := by
    have e : (2 : ℚ) ^ ((0 : ℤ) - 53) = 1 / 2 ^ 53 := by
      rw [show ((0 : ℤ) - 53) = -((53 : ℕ) : ℤ) by norm_num, zpow_neg, zpow_natCast]
      norm_num
    rwa [e] at hd
  obtain ⟨hd1, hd2⟩ := abs_le.mp hd'
  have hy : |toDouble x * 100| ≤ (2 : ℚ) ^ (7 : ℤ) := by
    rw [abs_le]
    constructor
    · norm_num at hd1 ⊢
      linarith
    · norm_num at hd2 ⊢
      linarith
  have hp := toDouble_error (toDouble x * 100) 7 (by norm_num) hy
  have hp' : |toDouble (toDouble x * 100) - toDouble x * 100| ≤ 1 / 2 ^ 46 := by
    have e : (2 : ℚ) ^ ((7 : ℤ) - 53) = 1 / 2 ^ 46 := by
      rw [show ((7 : ℤ) - 53) = -((46 : ℕ) : ℤ) by norm_num, zpow_neg, zpow_natCast]
      norm_num
    rwa [e] at hp
  obtain ⟨hp1, hp2⟩ := abs_le.mp hp'
  rw [abs_le]
  constructor
  · norm_num at hd1 hp1 ⊢
    linarith
  · norm_num at hd2 hp2 ⊢
    linarith

theorem riskPercent_of_unit (x : ℚ) (h0 : 0 ≤ x) (h1 : x ≤ 1) :
    riskPercent x = some (roundHalfAway (toDouble (toDouble x * 100))) ∧
      0 ≤ roundHalfAway (toDouble (toDouble x * 100)) ∧
      roundHalfAway (toDouble (toDouble x * 100)) ≤ 100 := by
  obtain ⟨hp1, hp2⟩ := abs_le.mp (double_product_near x h0 h1)
  have hlo : -(1 : ℚ) < toDouble (toDouble x * 100) := by
    norm_num at hp1 ⊢
    linarith
  have hhi : toDouble (toDouble x * 100) < 101 := by
    norm_num at hp2 ⊢
    linarith
  have hover : ¬ doubleMax < |toDouble (toDouble x * 100)| := by
    rw [not_lt, abs_le]
    have hmax : (101 : ℚ) ≤ doubleMax := by
      unfold doubleMax
      norm_num
    constructor <;> linarith
  refine ⟨by simp [riskPercent, hover], ?_⟩
  apply roundHalfAway_between 0 100
  · norm_num at hp1 ⊢
    linarith
  · norm_num at hp2 ⊢
    linarith

/-- C17, counterexample. A live reading with `failure_risk` 1.5 is stored with
risk 150, which is not between 0 and 100; and a reading with `failure_risk`
0.08499999999999999 is stored with risk 9, although the product is
8.499999999999999, whose nearest integer is 8: the double product is 8.5. -/
theorem unclamped_risk_point_exceeds_100 :
    unclampedReading.failure_risk = some 1.5 ∧
      (mkPoint "12:00:00" unclampedReading).risk = some 150 ∧
      (¬ ∃ n : ℤ, (mkPoint "12:00:00" unclampedReading).risk = some n ∧ 0 ≤ n ∧ n ≤ 100) ∧
      nearTieReading.failure_risk = some 0.08499999999999999 ∧
      (mkPoint "12:00:00" nearTieReading).risk = some 9 ∧
      toDouble (toDouble 0.08499999999999999 * 100) = 8.5 ∧
      |(9 : ℚ) - 0.08499999999999999 * 100| > 1 / 2 := by
  have h : (mkPoint "12:00:00" unclampedReading).risk = some 150 := by decide!
  refine ⟨rfl, h, ?_, rfl, by decide!, by decide!, by norm_num [abs_of_pos]⟩
  rintro ⟨n, hn, _, h100⟩
  rw [h] at hn
  cases hn
  omega

/-- C17, amended. For every ingested reading whose `failure_risk` is a number
`x`, the stored point's risk is the double product `x * 100` rounded to the
nearest integer, ties away from zero (no numeral when the product overflows);
when `0 ≤ x ≤ 1` it is an integer between 0 and 100 and differs from the exact
product by at most `1/2 + 2 ^ (-45)`; for every reading made by the generator it
is between 2 and 95. -/
theorem point_risk_is_rounded_percentage (timestamp : String) (m : Reading) (x : ℚ)
    (hm : m.failure_risk = some x) :
    (mkPoint timestamp m).risk
        = (if doubleMax < |toDouble (toDouble x * 100)| then none
          else some (roundHalfAway (toDouble (toDouble x * 100)))) ∧
      |((roundHalfAway (toDouble (toDouble x * 100)) : ℤ) : ℚ) - toDouble (toDouble x * 100)|
        ≤ 1 / 2 ∧
      (0 ≤ x → x ≤ 1 →
        (mkPoint timestamp m).risk = some (roundHalfAway (toDouble (toDouble x * 100))) ∧
          0 ≤ roundHalfAway (toDouble (toDouble x * 100)) ∧
          roundHalfAway (toDouble (toDouble x * 100)) ≤ 100 ∧
          |((roundHalfAway (toDouble (toDouble x * 100)) : ℤ) : ℚ) - x * 100|
            ≤ 1 / 2 + 1 / 2 ^ 45) ∧
      ∀ (M : JsMath) (now : String) (d : Draws) (t : ℤ),
        ∃ n : ℤ, (mkPoint timestamp (generateSyntheticMachine M now d t)).risk = some n ∧
          2 ≤ n ∧ n ≤ 95 := by
  have hrisk : ∀ (r : Reading) (y : ℚ), r.failure_risk = some y →
      (mkPoint timestamp r).risk = riskPercent y := by
    intro r y hr
    simp [mkPoint, hr]
  refine ⟨?_, roundHalfAway_near _, ?_, ?_⟩
  · rw [hrisk m x hm]
    rfl
  · intro h0 h1
    obtain ⟨hsome, hlo, hhi⟩ := riskPercent_of_unit x h0 h1
    refine ⟨by rw [hrisk m x hm, hsome], hlo, hhi, ?_⟩
    have hn := abs_le.mp (roundHalfAway_near (toDouble (toDouble x * 100)))
    have hp := abs_le.mp (double_product_near x h0 h1)
    rw [abs_le]
    constructor <;> linarith [hn.1, hn.2, hp.1, hp.2]
  · intro M now d t
    obtain ⟨hlo, hhi⟩ := synthetic_failure_risk_bounds M d t
    have h0 : 0 ≤ toFixed (synRisk M d t) 3 := le_trans (by norm_num) hlo
    have h1 : toFixed (synRisk M d t) 3 ≤ 1 := le_trans hhi (by norm_num)
    obtain ⟨hsome, _, _⟩ := riskPercent_of_unit _ h0 h1
    have hp := abs_le.mp (double_product_near _ h0 h1)
    refine ⟨roundHalfAway (toDouble (toDouble (toFixed (synRisk M d t) 3) * 100)), ?_, ?_⟩
    · rw [hrisk _ _ rfl, hsome]
    · apply roundHalfAway_between 2 95
      · norm_num at hlo hp ⊢
        linarith [hp.1]
      · norm_num at hhi hp ⊢
        linarith [hp.2]

/-- Witness for C17: the sample reading at risk 0.5 is stored with risk 50, an
integer between 0 and 100. -/
theorem point_risk_is_rounded_percentage_witness :
    sampleReading.failure_risk = some (1 / 2) ∧
      (mkPoint "12:00:00" sampleReading).risk
        = some (roundHalfAway (toDouble (toDouble (1 / 2) * 100))) ∧
      roundHalfAway (toDouble (toDouble (1 / 2) * 100)) = 50 ∧
      (0 ≤ roundHalfAway (toDouble (toDouble (1 / 2) * 100)) ∧
        roundHalfAway (toDouble (toDouble (1 / 2) * 100)) ≤ 100) :=
  have h := (point_risk_is_rounded_percentage "12:00:00" sampleReading (1 / 2) rfl).2.2.1
    (by norm_num) (by norm_num)
  ⟨rfl, h.1, by decide!, h.2.1, h.2.2.1⟩

/-! ## Frame and determinacy properties of `processData` -/

theorem recordReading_get_other (ts : String) (h h2 : History) (m : Reading) (k : String)
    (hs : recordReading ts h m = some h2) (hne : k ≠ m.machine_id) : h2.get k = h.get k := by
  rw [recordReading_some ts h h2 m hs]
  exact History.get_set_other _ _ _ _ hne

theorem recordReading_get_isSome (ts : String) (h h2 : History) (m : Reading) (k : String)
    (hs : recordReading ts h m = some h2) (hk : (h.get k).isSome = true) :
    (h2.get k).isSome = true := by
  by_cases hkm : k = m.machine_id
  · rw [recordReading_some ts h h2 m hs, hkm, History.get_set_self]
    rfl
  · rw [recordReading_get_other ts h h2 m k hs hkm]
    exact hk

theorem updateHistory_get_other (ts : String) (data : List Reading) (h h2 : History)
    (k : String) (hs : updateHistory ts data h = some h2)
    (hne : ∀ m ∈ data, m.machine_id ≠ k) : h2.get k = h.get k := by
  induction data generalizing h with
  | nil =>
    simp only [updateHistory, Option.some.injEq] at hs
    rw [hs]
  | cons m rest ih =>
    simp only [updateHistory] at hs
    cases hr : recordReading ts h m with
    | none => simp [hr] at hs
    | some next =>
      rw [hr] at hs
      rw [ih next hs (fun x hx => hne x (by simp [hx]))]
      exact recordReading_get_other ts h next m k hr (fun e => hne m (by simp) e.symm)

theorem updateHistory_get_isSome (ts : String) (data : List Reading) (h h2 : History)
    (k : String) (hs : updateHistory ts data h = some h2) (hk : (h.get k).isSome = true) :
    (h2.get k).isSome = true := by
  induction data generalizing h with
  | nil =>
    simp only [updateHistory, Option.some.injEq] at hs
    rw [← hs]
    exact hk
  | cons m rest ih =>
    simp only [updateHistory] at hs
    cases hr : recordReading ts h m with
    | none => simp [hr] at hs
    | some next =>
      rw [hr] at hs
      exact ih next hs (recordReading_get_isSome ts h next m k hr hk)

theorem jsLe_false_of_jsGt (a : Option ℚ) (c : ℚ) (h : jsGt a c = true) : jsLe a c = false := by
  cases a with
  | none => rfl
  | some x =>
    simp only [jsGt, decide_eq_true_eq] at h
    simp only [jsLe, decide_eq_false_iff_not, not_le]
    exact h

theorem jsGt_false_of_jsLe (a : Option ℚ) (c : ℚ) (h : jsLe a c = true) : jsGt a c = false := by
  cases a with
  | none => rfl
  | some x =>
    simp only [jsLe, decide_eq_true_eq] at h
    simp only [jsGt, decide_eq_false_iff_not, gt_iff_lt, not_lt]
    exact h

/-- C18. The alert set after a tick is a function of the snapshot: the same
snapshot processed from any two states (with any flags and clock labels) leaves
the same alerts; and a unit `id` whose readings in the snapshot all have
`failure_risk <= 0.4`, in particular a unit absent from the snapshot, has no
alert after the tick, whatever alerts it had before. -/
theorem alerts_recomputed_from_snapshot (data : List Reading) (synthetic1 synthetic2 : Bool)
    (timestamp1 timestamp2 : String) (s1 s2 : AppState) (id : String)
    (hid : ∀ m ∈ data, m.machine_id = id → jsLe m.failure_risk 0.4 = true) :
    (processData data synthetic1 timestamp1 s1).alerts
        = (processData data synthetic2 timestamp2 s2).alerts ∧
      ((processData data synthetic1 timestamp1 s1).alerts.filter (fun a => a.id = id)) = [] := by
  refine ⟨rfl, ?_⟩
  show (newAlerts data).filter (fun a => a.id = id) = []
  rw [List.filter_eq_nil_iff]
  intro a ha
  simp only [newAlerts, List.mem_map, List.mem_filter] at ha
  obtain ⟨m, ⟨hm, hgt⟩, rfl⟩ := ha
  simp only [decide_eq_true_eq]
  intro hmid
  have := jsGt_false_of_jsLe _ _ (hid m hm hmid)
  rw [this] at hgt
  exact Bool.noConfusion hgt

/-- Witness for C18: units `A` and `B` are alerted; after a snapshot that holds
only `B` at risk 0.3, neither `B` (at most 0.4) nor `A` (absent) has an alert. -/
theorem alerts_recomputed_from_snapshot_witness :
    alertedState.alerts.map (fun a => a.id) = ["A", "B"] ∧
      (∀ m ∈ [boundaryReading], m.machine_id = "B" → jsLe m.failure_risk 0.4 = true) ∧
      (∀ m ∈ [boundaryReading], m.machine_id = "A" → jsLe m.failure_risk 0.4 = true) ∧
      ((processData [boundaryReading] false "12:00:02" alertedState).alerts.filter
          (fun a => a.id = "B")) = [] ∧
      ((processData [boundaryReading] false "12:00:02" alertedState).alerts.filter
          (fun a => a.id = "A")) = [] :=
  have hB : ∀ m ∈ [boundaryReading], m.machine_id = "B" → jsLe m.failure_risk 0.4 = true := by
    decide!
  have hA : ∀ m ∈ [boundaryReading], m.machine_id = "A" → jsLe m.failure_risk 0.4 = true := by
    decide!
  ⟨by decide!, hB, hA,
    (alerts_recomputed_from_snapshot [boundaryReading] false true "12:00:02" "12:00:04"
      alertedState AppState.init "B" hB).2,
    (alerts_recomputed_from_snapshot [boundaryReading] false true "12:00:02" "12:00:04"
      alertedState AppState.init "A" hA).2⟩

/-- C19. A tick does not touch the history of a unit it does not observe: for a
unit id that occurs in no reading of `data`, the entry of the history object is
the same before and after `processData(data)`; and for every unit id, an entry
present before the call is present after it. -/
theorem unobserved_history_unchanged (data : List Reading) (synthetic : Bool)
    (timestamp : String) (s : AppState) (id : String) :
    ((∀ m ∈ data, m.machine_id ≠ id) →
        (processData data synthetic timestamp s).history.get id = s.history.get id ∧
          (processData data synthetic timestamp s).history.seq id = s.history.seq id) ∧
      ((s.history.get id).isSome = true →
        ((processData data synthetic timestamp s).history.get id).isSome = true) := by
  have hhist : (processData data synthetic timestamp s).history
      = (updateHistory timestamp data s.history).getD s.history := rfl
  rw [hhist]
  cases hu : updateHistory timestamp data s.history with
  | none => exact ⟨fun _ => ⟨rfl, rfl⟩, fun hk => hk⟩
  | some h2 =>
    constructor
    · intro hne
      have h : h2.get id = s.history.get id :=
        updateHistory_get_other timestamp data s.history h2 id hu hne
      exact ⟨h, by simp [History.seq, h]⟩
    · intro hk
      exact updateHistory_get_isSome timestamp data s.history h2 id hu hk

/-- Witness for C19: with units `B` and `A` tracked, a snapshot for `A` alone
leaves the sequence of `B` as it was, and both units stay tracked. -/
theorem unobserved_history_unchanged_witness :
    (∀ m ∈ [sampleReading], m.machine_id ≠ "B") ∧
      ((sampleHistory 3).get "B").isSome = true ∧ ((sampleHistory 3).get "A").isSome = true ∧
      (processData [sampleReading] false "12:00:06"
          { AppState.init with history := sampleHistory 3 }).history.get "B"
        = (sampleHistory 3).get "B" ∧
      ((processData [sampleReading] false "12:00:06"
          { AppState.init with history := sampleHistory 3 }).history.get "A").isSome = true :=
  have hne : ∀ m ∈ [sampleReading], m.machine_id ≠ "B" := by decide
  ⟨hne, by decide, by decide,
    ((unobserved_history_unchanged [sampleReading] false "12:00:06"
      { AppState.init with history := sampleHistory 3 } "B").1 hne).1,
    (unobserved_history_unchanged [sampleReading] false "12:00:06"
      { AppState.init with history := sampleHistory 3 } "A").2 (by decide)⟩

/-- C20. For every snapshot in which every reading has `failure_risk > 0.4`,
processed as live data, the alert list has one alert per reading, for the same
units in the same order, `healthyCount` is 0 and the savings are 0. -/
theorem all_risky_snapshot (data : List Reading) (timestamp : String) (s : AppState)
    (hrisk : ∀ m ∈ data, jsGt m.failure_risk 0.4 = true) :
    (processData data false timestamp s).alerts
        = data.map (fun m => { id := m.machine_id, msg := m.message, risk := m.failure_risk }) ∧
      (processData data false timestamp s).alerts.length = data.length ∧
      (processData data false timestamp s).alerts.map (fun a => a.id)
        = data.map (fun m => m.machine_id) ∧
      healthyCount data = 0 ∧
      (processData data false timestamp s).energySavings = 0 := by
  have ha : newAlerts data
      = data.map (fun m => { id := m.machine_id, msg := m.message, risk := m.failure_risk }) := by
    unfold newAlerts
    rw [List.filter_eq_self.mpr hrisk]
  have hh : healthyCount data = 0 := by
    unfold healthyCount
    rw [List.length_eq_zero, List.filter_eq_nil_iff]
    intro m hm
    simp [jsLe_false_of_jsGt _ _ (hrisk m hm)]
  refine ⟨ha, ?_, ?_, hh, ?_⟩
  · show (newAlerts data).length = _
    rw [ha, List.length_map]
  · show (newAlerts data).map _ = _
    rw [ha, List.map_map]
    rfl
  · show (healthyCount data : ℚ) * 125.5 = 0
    rw [hh]
    simp

/-- Witness for C20: live readings for units `A` and `B`, each at risk 0.5, give
alerts for `A` and `B`, no healthy unit and savings 0. -/
theorem all_risky_snapshot_witness :
    (∀ m ∈ [sampleReading, sampleReadingB], jsGt m.failure_risk 0.4 = true) ∧
      (processData [sampleReading, sampleReadingB] false "12:00:00" AppState.init).alerts.map
          (fun a => a.id) = ["A", "B"] ∧
      healthyCount [sampleReading, sampleReadingB] = 0 ∧
      (processData [sampleReading, sampleReadingB] false "12:00:00" AppState.init).energySavings
        = 0 :=
  have hrisk : ∀ m ∈ [sampleReading, sampleReadingB], jsGt m.failure_risk 0.4 = true := by
    decide!
  have h := all_risky_snapshot [sampleReading, sampleReadingB] "12:00:00" AppState.init hrisk
  ⟨hrisk, h.2.2.1, h.2.2.2.1, h.2.2.2.2⟩

/-! ## Every tick publishes a snapshot with fresh history -/

theorem pushShift_getLast (prevArr : List HistoryPoint) (p : HistoryPoint) :
    (pushShift prevArr p).getLast? = some p := by
  unfold pushShift
  split
  · cases prevArr with
    | nil => simp at *
    | cons a l => simp [List.getLast?_concat]
  · exact List.getLast?_concat _

theorem updateHistory_of_ordinary (ts : String) (data : List Reading) (h : History)
    (hkeys : ∀ m ∈ data, m.machine_id ∉ objectPrototypeKeys) :
    ∃ h2 : History, updateHistory ts data h = some h2 := by
  induction data generalizing h with
  | nil => exact ⟨h, rfl⟩
  | cons m rest ih =>
    have hrec := recordReading_of_readable ts h m
      (History.read_ne_inherited_of_not_mem h _ (hkeys m (by simp)))
    obtain ⟨h2, hh2⟩ := ih (h.set m.machine_id (pushShift (h.seq m.machine_id) (mkPoint ts m)))
      (fun x hx => hkeys x (by simp [hx]))
    exact ⟨h2, by simp only [updateHistory, hrec]; exact hh2⟩

theorem updateHistory_seq_getLast (ts : String) (data : List Reading) (h h2 : History)
    (id : String) (hs : updateHistory ts data h = some h2)
    (hid : ∃ m ∈ data, m.machine_id = id) :
    ∃ m ∈ data, m.machine_id = id ∧ (h2.seq id).getLast? = some (mkPoint ts m) := by
  induction data generalizing h with
  | nil => simp at hid
  | cons m rest ih =>
    simp only [updateHistory] at hs
    cases hrec : recordReading ts h m with
    | none => simp [hrec] at hs
    | some next =>
      rw [hrec] at hs
      by_cases hr : ∃ x ∈ rest, x.machine_id = id
      · obtain ⟨x, hx, hxid, hlast⟩ := ih next hs hr
        exact ⟨x, by simp [hx], hxid, hlast⟩
      · have hne : ∀ x ∈ rest, x.machine_id ≠ id := fun x hx e => hr ⟨x, hx, e⟩
        have hm : m.machine_id = id := by
          obtain ⟨x, hx, hxid⟩ := hid
          rcases List.mem_cons.mp hx with h1 | h1
          · rw [← h1]; exact hxid
          · exact absurd hxid (hne x h1)
        refine ⟨m, by simp, hm, ?_⟩
        have hget := updateHistory_get_other ts rest next h2 id hs hne
        have hseq : h2.seq id = next.seq id := by
          simp [History.seq, hget]
        rw [hseq, recordReading_some ts h next m hrec, ← hm]
        simp only [History.seq, History.get_set_self, Option.getD_some]
        exact pushShift_getLast _ _

theorem pollTick_is_processData (e : TickInputs) (o : FetchOutcome) (s : AppState) :
    ∃ (data : List Reading) (synthetic : Bool) (s0 : AppState),
      data ≠ [] ∧ pollTick e o s = processData data synthetic e.label s0 ∧
      (isLiveOutcome o = false → data = [generateSyntheticMachine e.math e.now e.draws
        (s.syntheticTick + 1)]) ∧
      (∀ r rest status, o = FetchOutcome.response status (Body.json (JsonValue.array (r :: rest))) →
        data = r :: rest) := by
  cases o with
  | rejected => exact ⟨_, true, _, by simp, rfl, fun _ => rfl, by simp⟩
  | response status body =>
    cases body with
    | notJson => exact ⟨_, true, _, by simp, rfl, fun _ => rfl, by simp⟩
    | json v =>
      cases v with
      | other => exact ⟨_, true, _, by simp, rfl, fun _ => rfl, by simp⟩
      | array data =>
        cases data with
        | nil => exact ⟨_, true, _, by simp, rfl, fun _ => rfl, by simp⟩
        | cons r rest =>
          refine ⟨r :: rest, false, { s with apiOnline := true }, by simp, ?_, ?_, ?_⟩
          · simp [pollTick, onData]
          · intro h
            simp [isLiveOutcome] at h
          · intro r2 rest2 status2 heq
            simp only [FetchOutcome.response.injEq, Body.json.injEq, JsonValue.array.injEq] at heq
            exact heq.2

/-- Fresh history after a tick whose snapshot has ordinary unit ids.  After
every tick the snapshot holds at least one reading; and when no reading of the
snapshot is named like a member of `Object.prototype` (which holds for every
synthetic tick, whose only unit is `M01`), the sequence of each unit of the
snapshot is non-empty and ends with the point derived from a reading of that
unit in this snapshot. -/
theorem tick_snapshot_nonempty_with_fresh_history (e : TickInputs) (o : FetchOutcome)
    (s : AppState) :
    (pollTick e o s).machines ≠ [] ∧
      ((∀ m ∈ (pollTick e o s).machines, m.machine_id ∉ objectPrototypeKeys) →
        ∀ m ∈ (pollTick e o s).machines,
          (pollTick e o s).history.seq m.machine_id ≠ [] ∧
            ∃ r ∈ (pollTick e o s).machines, r.machine_id = m.machine_id ∧
              ((pollTick e o s).history.seq m.machine_id).getLast?
                = some (mkPoint e.label r)) := by
  obtain ⟨data, synthetic, s0, hne, heq, _, _⟩ := pollTick_is_processData e o s
  rw [heq]
  refine ⟨hne, ?_⟩
  intro hkeys m hm
  obtain ⟨h2, hh2⟩ := updateHistory_of_ordinary e.label data s0.history hkeys
  have hhist : (processData data synthetic e.label s0).history = h2 := by
    show (updateHistory e.label data s0.history).getD s0.history = h2
    rw [hh2]
    rfl
  obtain ⟨r, hr, hrid, hlast⟩ :=
    updateHistory_seq_getLast e.label data s0.history h2 m.machine_id hh2 ⟨m, hm, rfl⟩
  rw [hhist]
  refine ⟨?_, r, hr, hrid, hlast⟩
  intro hnil
  rw [hnil] at hlast
  simp at hlast

/-- C21, the code at the failing input. The fetch resolves with a live array
holding one reading for the unit `constructor`: the snapshot holds that reading,
but the history updater throws and the unit has no history point at all. -/
theorem constructor_snapshot_without_history (e : TickInputs) :
    (pollTick e (FetchOutcome.response 200 (Body.json (JsonValue.array [constructorReading])))
        AppState.init).machines = [constructorReading] ∧
      (pollTick e (FetchOutcome.response 200 (Body.json (JsonValue.array [constructorReading])))
        AppState.init).history.seq constructorReading.machine_id = [] ∧
      (pollTick e (FetchOutcome.response 200 (Body.json (JsonValue.array [constructorReading])))
        AppState.init).history = [] := by
  have h : pollTick e
      (FetchOutcome.response 200 (Body.json (JsonValue.array [constructorReading])))
      AppState.init
      = processData [constructorReading] false e.label { AppState.init with apiOnline := true } := by
    simp [pollTick, onData]
  rw [h]
  exact ⟨rfl, rfl, rfl⟩

/-! ## The chat request -/

/-- C22. When a chat request is made (the input is not blank) and fails by a
network error, a non-ok status or an undecodable body, `askAI` appends to the
chat history the user's message followed by the one fixed placeholder message,
ends with `loadingChat = false`, and leaves the telemetry state unchanged. -/
theorem askAI_failure_is_local (o : ChatOutcome) (s : AppState)
    (hinput : trimsToEmpty s.chatInput = false) (hfail : chatRequestFails o = true) :
    (askAI o s).chatHistory
        = s.chatHistory ++ [{ type := "user", text := s.chatInput },
            { type := "ai", text := chatFailureText }] ∧
      (askAI o s).loadingChat = false ∧
      (askAI o s).telemetry = s.telemetry := by
  have hcatch : askAITry o
      { s with
        chatInput := ""
        chatHistory := s.chatHistory ++ [{ type := "user", text := s.chatInput }]
        loadingChat := true }
      = askAICatch
        { s with
          chatInput := ""
          chatHistory := s.chatHistory ++ [{ type := "user", text := s.chatInput }]
          loadingChat := true } := by
    cases o with
    | rejected => rfl
    | response status body =>
      by_cases hok : httpOk status = true
      · cases body with
        | notJson => simp [askAITry, hok]
        | json v => simp [chatRequestFails, hok] at hfail
      · simp [askAITry, hok]
  have hrun : askAI o s
      = { askAICatch
          { s with
            chatInput := ""
            chatHistory := s.chatHistory ++ [{ type := "user", text := s.chatInput }]
            loadingChat := true } with loadingChat := false } := by
    unfold askAI
    simp only [hinput, Bool.false_eq_true, if_false, hcatch]
  rw [hrun]
  refine ⟨?_, rfl, rfl⟩
  simp [askAICatch]

/-- Witness for C22: the question `status of A?` answered by a status 503. -/
theorem askAI_failure_is_local_witness :
    trimsToEmpty chattingState.chatInput = false ∧
      chatRequestFails (ChatOutcome.response 503 (ChatBody.json (ChatJson.value none))) = true ∧
      (askAI (ChatOutcome.response 503 (ChatBody.json (ChatJson.value none)))
          chattingState).chatHistory
        = [{ type := "user", text := "status of A?" },
            { type := "ai", text := chatFailureText }] ∧
      (askAI (ChatOutcome.response 503 (ChatBody.json (ChatJson.value none)))
          chattingState).loadingChat = false ∧
      (askAI (ChatOutcome.response 503 (ChatBody.json (ChatJson.value none)))
          chattingState).telemetry = chattingState.telemetry :=
  have hinput : trimsToEmpty chattingState.chatInput = false := by decide
  have hfail :
      chatRequestFails (ChatOutcome.response 503 (ChatBody.json (ChatJson.value none))) = true := by
    decide
  have h := askAI_failure_is_local
    (ChatOutcome.response 503 (ChatBody.json (ChatJson.value none))) chattingState hinput hfail
  ⟨hinput, hfail, h.1, h.2.1, h.2.2⟩

/-! ## The polling lifecycle -/

/-- C23, counterexample. The user enters the dashboard, the timer fires once and
the user leaves before the fetch settles: the timer is cleared and one fetch is
in flight.  When that fetch then rejects, the handlers still run: the counter
goes from 0 to 1, `apiOnline` becomes false and a synthetic snapshot is stored,
so the telemetry state has changed. -/
theorem in_flight_fetch_applied_after_stop :
    stoppedWithFetchInFlight.timerSet = false ∧
      stoppedWithFetchInFlight.app.showHomepage = true ∧
      stoppedWithFetchInFlight.inFlight = 1 ∧
      stoppedWithFetchInFlight.app.syntheticTick = 0 ∧
      (stoppedWithFetchInFlight.step
          (Event.fetchSettles sampleInputs FetchOutcome.rejected)).app.syntheticTick = 1 ∧
      (stoppedWithFetchInFlight.step
          (Event.fetchSettles sampleInputs FetchOutcome.rejected)).app.apiOnline = false ∧
      (stoppedWithFetchInFlight.step
          (Event.fetchSettles sampleInputs FetchOutcome.rejected)).app.machines.length = 1 ∧
      (stoppedWithFetchInFlight.step
          (Event.fetchSettles sampleInputs FetchOutcome.rejected)).app.telemetry
        ≠ stoppedWithFetchInFlight.app.telemetry := by
  refine ⟨rfl, rfl, rfl, rfl, rfl, rfl, rfl, ?_⟩
  intro h
  have h2 : (stoppedWithFetchInFlight.step
      (Event.fetchSettles sampleInputs FetchOutcome.rejected)).app.syntheticTick
      = stoppedWithFetchInFlight.app.syntheticTick := by
    have := congrArg (fun p => p.2.2.2.2.2.2) h
    exact this
  have h3 : (1 : ℤ) = 0 := h2
  omega

/-- C23, amended. Once polling has been stopped (timer cleared), the timer
starts no further fetch, but a fetch that was in flight is not discarded: when
it settles, the state is updated by the same handlers as during polling, and
only `showHomepage` keeps the value set by leaving. -/
theorem stopped_polling_still_applies_in_flight (c : Controller) (e : TickInputs)
    (o : FetchOutcome) (hstopped : c.timerSet = false) (hflight : 0 < c.inFlight) :
    c.step Event.timerFires = c ∧
      (c.step (Event.fetchSettles e o)).app = pollTick e o c.app ∧
      (c.step (Event.fetchSettles e o)).inFlight = c.inFlight - 1 ∧
      (c.step (Event.fetchSettles e o)).timerSet = false ∧
      (c.step (Event.fetchSettles e o)).app.showHomepage = c.app.showHomepage := by
  have hs : c.step (Event.fetchSettles e o)
      = { c with app := pollTick e o c.app, inFlight := c.inFlight - 1 } := by
    simp [Controller.step, hflight]
  have hshow : (pollTick e o c.app).showHomepage = c.app.showHomepage := by
    cases o with
    | rejected => rfl
    | response status body =>
      cases body with
      | notJson => rfl
      | json v =>
        cases v with
        | other => rfl
        | array data =>
          cases data with
          | nil => rfl
          | cons r rest => simp [pollTick, onData, processData]
  rw [hs]
  refine ⟨?_, rfl, rfl, hstopped, hshow⟩
  simp [Controller.step, hstopped]

/-- Witness for C23: the stopped controller with one fetch in flight. -/
theorem stopped_polling_still_applies_in_flight_witness :
    stoppedWithFetchInFlight.timerSet = false ∧ 0 < stoppedWithFetchInFlight.inFlight ∧
      stoppedWithFetchInFlight.step Event.timerFires = stoppedWithFetchInFlight ∧
      (stoppedWithFetchInFlight.step (Event.fetchSettles sampleInputs FetchOutcome.rejected)).app
        = pollTick sampleInputs FetchOutcome.rejected stoppedWithFetchInFlight.app :=
  have h := stopped_polling_still_applies_in_flight stoppedWithFetchInFlight sampleInputs
    FetchOutcome.rejected rfl (by decide)
  ⟨rfl, by decide, h.1, h.2.1⟩

theorem pollTick_syntheticTick (e : TickInputs) (o : FetchOutcome) (s : AppState) :
    (pollTick e o s).syntheticTick
      = if isLiveOutcome o then s.syntheticTick else s.syntheticTick + 1 := by
  cases o with
  | rejected => rfl
  | response status body =>
    cases body with
    | notJson => rfl
    | json v =>
      cases v with
      | other => rfl
      | array data =>
        cases data with
        | nil => rfl
        | cons r rest => simp [pollTick, onData, processData, isLiveOutcome]

theorem pollTick_synthetic_machines (e : TickInputs) (o : FetchOutcome) (s : AppState)
    (ho : isLiveOutcome o = false) :
    (pollTick e o s).machines
      = [generateSyntheticMachine e.math e.now e.draws (s.syntheticTick + 1)] := by
  cases o with
  | rejected => rfl
  | response status body =>
    cases body with
    | notJson => rfl
    | json v =>
      cases v with
      | other => rfl
      | array data =>
        cases data with
        | nil => rfl
        | cons r rest => simp [isLiveOutcome] at ho

theorem runPolls_syntheticTick (s : AppState) (ticks : List (TickInputs × FetchOutcome)) :
    (runPolls s ticks).syntheticTick = s.syntheticTick + (syntheticCount ticks : ℤ) := by
  induction ticks generalizing s with
  | nil => simp [runPolls, syntheticCount]
  | cons k rest ih =>
    have hstep : runPolls s (k :: rest) = runPolls (pollTick k.1 k.2 s) rest := rfl
    rw [hstep, ih, pollTick_syntheticTick]
    by_cases hl : isLiveOutcome k.2 = true
    · have : syntheticCount (k :: rest) = syntheticCount rest := by
        simp [syntheticCount, List.filter_cons, hl]
      simp [hl, this]
    · have hl2 : isLiveOutcome k.2 = false := by simpa using hl
      have : syntheticCount (k :: rest) = syntheticCount rest + 1 := by
        simp [syntheticCount, List.filter_cons, hl2]
      rw [this, if_neg hl]
      push_cast
      ring

/-- C24. The synthetic tick counter starts at 0; a tick that falls back to
synthetic data adds exactly 1 to it and a live tick leaves it unchanged; after
any sequence of ticks from the initial state it equals the number of synthetic
ticks processed; and a synthetic tick that follows `ticks` generates its reading
with that number plus 1 as tick argument. -/
theorem syntheticTick_counts_synthetic_ticks (ticks : List (TickInputs × FetchOutcome))
    (e : TickInputs) (o : FetchOutcome) (s : AppState) :
    AppState.init.syntheticTick = 0 ∧
      (pollTick e o s).syntheticTick
        = (if isLiveOutcome o then s.syntheticTick else s.syntheticTick + 1) ∧
      (runPolls AppState.init ticks).syntheticTick = (syntheticCount ticks : ℤ) ∧
      (isLiveOutcome o = false →
        (runPolls AppState.init (ticks ++ [(e, o)])).machines
          = [generateSyntheticMachine e.math e.now e.draws ((syntheticCount ticks : ℤ) + 1)] ∧
        (runPolls AppState.init (ticks ++ [(e, o)])).syntheticTick
          = (syntheticCount ticks : ℤ) + 1) := by
  have hcount : (runPolls AppState.init ticks).syntheticTick = (syntheticCount ticks : ℤ) := by
    rw [runPolls_syntheticTick]
    simp [AppState.init]
  refine ⟨rfl, pollTick_syntheticTick e o s, hcount, ?_⟩
  intro ho
  have happ : runPolls AppState.init (ticks ++ [(e, o)])
      = pollTick e o (runPolls AppState.init ticks) := by
    simp [runPolls, List.foldl_append]
  rw [happ, pollTick_synthetic_machines e o _ ho, pollTick_syntheticTick, hcount]
  simp [ho]

/-! ## Alerted, healthy and optimal readings -/

theorem jsGt_xor_jsLe (a : Option ℚ) (c : ℚ) (ha : a.isSome = true) :
    (jsGt a c = true ∧ jsLe a c = false) ∨ (jsGt a c = false ∧ jsLe a c = true) := by
  cases a with
  | none => simp at ha
  | some x =>
    by_cases hx : x > c
    · left; simp [jsGt, jsLe, hx]
    · right; simp [jsGt, jsLe, hx, not_lt.mp hx]

/-- C25. For every snapshot whose readings all carry a numeric `failure_risk`,
the number of alerts plus `healthyCount` is the number of readings; and a
reading, numeric or not, never passes both the alert test and the healthy test. -/
theorem alerts_and_healthy_partition (data : List Reading) (synthetic : Bool)
    (timestamp : String) (s : AppState) (hnum : ∀ m ∈ data, m.failure_risk.isSome = true) :
    (processData data synthetic timestamp s).alerts.length + healthyCount data = data.length ∧
      ∀ m : Reading, ¬ (jsGt m.failure_risk 0.4 = true ∧ jsLe m.failure_risk 0.4 = true) := by
  constructor
  · show (newAlerts data).length + healthyCount data = data.length
    induction data with
    | nil => rfl
    | cons m rest ih =>
      have hrest := ih (fun x hx => hnum x (by simp [hx]))
      have hm := jsGt_xor_jsLe m.failure_risk 0.4 (hnum m (by simp))
      simp only [newAlerts, healthyCount, List.length_map] at hrest ⊢
      rcases hm with ⟨h1, h2⟩ | ⟨h1, h2⟩
      · simp only [List.filter_cons, h1, h2, if_true, List.length_cons]
        simp only [Bool.false_eq_true, if_false]
        omega
      · simp only [List.filter_cons, h1, h2, if_true, List.length_cons]
        simp only [Bool.false_eq_true, if_false]
        omega
  · intro m hboth
    have := jsGt_false_of_jsLe _ _ hboth.2
    rw [this] at hboth
    exact Bool.noConfusion hboth.1

/-- Witness for C25: units `A` (0.5, alerted) and `B` (0.3, healthy). -/
theorem alerts_and_healthy_partition_witness :
    (∀ m ∈ [sampleReading, boundaryReading], m.failure_risk.isSome = true) ∧
      (processData [sampleReading, boundaryReading] false "12:00:00" AppState.init).alerts.length
          + healthyCount [sampleReading, boundaryReading]
        = [sampleReading, boundaryReading].length :=
  have hnum : ∀ m ∈ [sampleReading, boundaryReading], m.failure_risk.isSome = true := by decide
  ⟨hnum, (alerts_and_healthy_partition [sampleReading, boundaryReading] false "12:00:00"
    AppState.init hnum).1⟩

theorem jsLe_of_jsLt_optimal (a : Option ℚ) (h : jsLt a 0.3 = true) : jsLe a 0.4 = true := by
  cases a with
  | none => simp [jsLt] at h
  | some x =>
    simp only [jsLt, decide_eq_true_eq] at h
    simp only [jsLe, decide_eq_true_eq]
    norm_num at h ⊢
    linarith

/-- C26. For every snapshot, a reading counted as optimal (`failure_risk < 0.3`)
is counted as healthy and raises no alert; hence the optimal count is at most
`healthyCount`, which is at most the number of readings. -/
theorem optimal_le_healthy_le_total (data : List Reading) (synthetic : Bool)
    (timestamp : String) (s : AppState) :
    (∀ m : Reading, jsLt m.failure_risk 0.3 = true →
        jsLe m.failure_risk 0.4 = true ∧ jsGt m.failure_risk 0.4 = false ∧
          newAlerts [m] = []) ∧
      optimalRange (processData data synthetic timestamp s).machines ≤ healthyCount data ∧
      healthyCount data ≤ data.length := by
  refine ⟨?_, ?_, ?_⟩
  · intro m hm
    have hle := jsLe_of_jsLt_optimal _ hm
    have hgt := jsGt_false_of_jsLe _ _ hle
    exact ⟨hle, hgt, by simp [newAlerts, List.filter_cons, hgt]⟩
  · show optimalRange data ≤ healthyCount data
    unfold optimalRange healthyCount
    rw [← List.countP_eq_length_filter, ← List.countP_eq_length_filter]
    exact List.countP_mono_left (fun m _ hm => jsLe_of_jsLt_optimal _ hm)
  · unfold healthyCount
    exact List.length_filter_le _ _

/-! ## Ranges of the generator -/

theorem mathAbs_bounds (x : ℚ) (hlo : -1 ≤ x) (hhi : x ≤ 1) :
    0 ≤ mathAbs x ∧ mathAbs x ≤ 1 := by
  unfold mathAbs
  split_ifs with h
  · exact ⟨h, hhi⟩
  · constructor <;> linarith

theorem clampUnit_bounds (x : ℚ) : -1 ≤ clampUnit x ∧ clampUnit x ≤ 1 := by
  unfold clampUnit
  exact ⟨le_max_left _ _, max_le (by norm_num) (min_le_left _ _)⟩

theorem taylorMath_bounded : taylorMath.Bounded :=
  fun _ => ⟨clampUnit_bounds _, clampUnit_bounds _⟩

theorem borderlineDraws_inUnit : borderlineDraws.InUnit := by
  simp only [Draws.InUnit, borderlineDraws]
  norm_num

theorem synTemp_bounds (M : JsMath) (d : Draws) (t : ℤ) (hM : M.Bounded) (hd : d.InUnit) :
    54 ≤ synTemp M d t ∧ synTemp M d t < 82 := by
  obtain ⟨⟨h1, h2⟩, _⟩ := hM ((t : ℚ) / 15)
  obtain ⟨⟨h3, h4⟩, _⟩ := hd
  unfold synTemp
  constructor
  · norm_num
    linarith
  · norm_num
    linarith

theorem synVibration_bounds (M : JsMath) (d : Draws) (t : ℤ) (hM : M.Bounded)
    (hd : d.InUnit) : 0.32 ≤ synVibration M d t ∧ synVibration M d t < 0.56 := by
  obtain ⟨⟨h1, h2⟩, _⟩ := hM ((t : ℚ) / 8)
  obtain ⟨h5, h6⟩ := mathAbs_bounds _ h1 h2
  obtain ⟨_, ⟨h3, h4⟩, _⟩ := hd
  unfold synVibration
  constructor
  · norm_num
    linarith
  · norm_num
    linarith

theorem synHumidity_bounds (M : JsMath) (d : Draws) (t : ℤ) (hM : M.Bounded)
    (hd : d.InUnit) : 35 ≤ synHumidity M d t ∧ synHumidity M d t < 53 := by
  obtain ⟨_, ⟨h1, h2⟩⟩ := hM ((t : ℚ) / 20)
  obtain ⟨_, _, ⟨h3, h4⟩, _⟩ := hd
  unfold synHumidity
  constructor
  · norm_num
    linarith
  · norm_num
    linarith

theorem synRssi_bounds (d : Draws) (hd : d.InUnit) : -63 ≤ synRssi d ∧ synRssi d ≤ -53 := by
  obtain ⟨_, _, _, ⟨h3, h4⟩, _⟩ := hd
  unfold synRssi mathRound
  have hlo : (-5 : ℤ) ≤ ⌊(d.rssi - 0.5) * 10 + 1 / 2⌋ := by
    rw [Int.le_floor]
    push_cast
    norm_num
    linarith
  have hhi : ⌊(d.rssi - 0.5) * 10 + 1 / 2⌋ < (6 : ℤ) := by
    rw [Int.floor_lt]
    push_cast
    norm_num
    linarith
  constructor <;> omega

theorem synRiskRaw_lt (M : JsMath) (d : Draws) (t : ℤ) (hM : M.Bounded) (hd : d.InUnit) :
    synRiskRaw M d t < 0.665 := by
  obtain ⟨_, hT⟩ := synTemp_bounds M d t hM hd
  obtain ⟨_, hV⟩ := synVibration_bounds M d t hM hd
  obtain ⟨_, _, _, _, ⟨_, h4⟩⟩ := hd
  unfold synRiskRaw
  norm_num at hV ⊢
  linarith

theorem synRisk_lt (M : JsMath) (d : Draws) (t : ℤ) (hM : M.Bounded) (hd : d.InUnit) :
    synRisk M d t < 0.665 := by
  have hraw := synRiskRaw_lt M d t hM hd
  unfold synRisk
  exact lt_of_le_of_lt (min_le_right _ _) (max_lt (by norm_num) hraw)

/-- C27. With sine values in `[-1, 1]` and every random draw in `[0, 1)`, the
risk before clamping is below 0.665 (so below 0.67 and below 0.8), the clamped
risk is below 0.8 and below 0.95, the message of the reading is not the CRITICAL
one, and the returned `failure_risk` is at most 0.665, never the upper clamp
0.95. -/
theorem synthetic_risk_never_critical (M : JsMath) (now : String) (d : Draws) (t : ℤ)
    (hM : M.Bounded) (hd : d.InUnit) :
    synRiskRaw M d t < 0.67 ∧ synRiskRaw M d t < 0.8 ∧
      synRisk M d t < 0.8 ∧ synRisk M d t < 0.95 ∧
      (generateSyntheticMachine M now d t).level ≠ some Level.critical ∧
      (generateSyntheticMachine M now d t).message ≠ some (criticalMessage (synRisk M d t)) ∧
      ∃ x : ℚ, (generateSyntheticMachine M now d t).failure_risk = some x ∧ x ≤ 0.665 ∧
        x ≠ 0.95 := by
  have hraw := synRiskRaw_lt M d t hM hd
  have hrisk := synRisk_lt M d t hM hd
  have h0 : 0 ≤ synRisk M d t := le_trans (by norm_num) (synRisk_bounds M d t).1
  have hlev : (generateSyntheticMachine M now d t).level ≠ some Level.critical := by
    rw [synthetic_level]
    have hnot : ¬ synRisk M d t > 0.8 := by
      norm_num at hrisk ⊢
      linarith
    rw [if_neg hnot]
    split_ifs <;> simp
  refine ⟨?_, ?_, ?_, ?_, hlev, ?_, toFixed (synRisk M d t) 3, rfl, ?_, ?_⟩
  · norm_num at hraw ⊢; linarith
  · norm_num at hraw ⊢; linarith
  · norm_num at hrisk ⊢; linarith
  · norm_num at hrisk ⊢; linarith
  · intro hmsg
    apply hlev
    show (generateSyntheticMachine M now d t).message.bind messageLevel = _
    rw [hmsg]
    exact messageLevel_criticalMessage _
  · have := toFixed_le 665 (synRisk M d t) 3 h0 (by norm_num at hrisk ⊢; linarith)
    norm_num at this ⊢
    linarith
  · have := toFixed_le 665 (synRisk M d t) 3 h0 (by norm_num at hrisk ⊢; linarith)
    intro heq
    rw [heq] at this
    norm_num at this

/-- Witness for C27: tick 5 under the bounded stand-in for sine and cosine. -/
theorem synthetic_risk_never_critical_witness :
    taylorMath.Bounded ∧ borderlineDraws.InUnit ∧
      synRisk taylorMath borderlineDraws 5 < 0.8 ∧
      (generateSyntheticMachine taylorMath "2025-01-01T00:00:10.000Z" borderlineDraws 5).level
        ≠ some Level.critical :=
  have h := synthetic_risk_never_critical taylorMath "2025-01-01T00:00:10.000Z" borderlineDraws 5
    taylorMath_bounded borderlineDraws_inUnit
  ⟨taylorMath_bounded, borderlineDraws_inUnit, h.2.2.1, h.2.2.2.2.1⟩

/-- C28. With sine and cosine values in `[-1, 1]` and every random draw in
`[0, 1)`, the returned reading has temperature in `[54, 82]`, vibration in
`[0.32, 0.56]`, humidity in `[35, 53]` and an integer signal strength in
`[-63, -53]`, and each `avg_*` field equals its primary field. -/
theorem synthetic_sensor_ranges (M : JsMath) (now : String) (d : Draws) (t : ℤ)
    (hM : M.Bounded) (hd : d.InUnit) :
    (∃ x : ℚ, (generateSyntheticMachine M now d t).temperature = some x ∧ 54 ≤ x ∧ x ≤ 82) ∧
      (∃ x : ℚ, (generateSyntheticMachine M now d t).vibration = some x ∧
        0.32 ≤ x ∧ x ≤ 0.56) ∧
      (∃ x : ℚ, (generateSyntheticMachine M now d t).humidity = some x ∧ 35 ≤ x ∧ x ≤ 53) ∧
      (∃ n : ℤ, (generateSyntheticMachine M now d t).signal_strength = some (n : ℚ) ∧
        -63 ≤ n ∧ n ≤ -53) ∧
      (generateSyntheticMachine M now d t).avg_temp
        = (generateSyntheticMachine M now d t).temperature ∧
      (generateSyntheticMachine M now d t).avg_vibration
        = (generateSyntheticMachine M now d t).vibration ∧
      (generateSyntheticMachine M now d t).avg_humidity
        = (generateSyntheticMachine M now d t).humidity ∧
      (generateSyntheticMachine M now d t).avg_rssi
        = (generateSyntheticMachine M now d t).signal_strength := by
  obtain ⟨hT1, hT2⟩ := synTemp_bounds M d t hM hd
  obtain ⟨hV1, hV2⟩ := synVibration_bounds M d t hM hd
  obtain ⟨hH1, hH2⟩ := synHumidity_bounds M d t hM hd
  obtain ⟨hR1, hR2⟩ := synRssi_bounds d hd
  have hT0 : 0 ≤ synTemp M d t := le_trans (by norm_num) hT1
  have hV0 : 0 ≤ synVibration M d t := le_trans (by norm_num) hV1
  have hH0 : 0 ≤ synHumidity M d t := le_trans (by norm_num) hH1
  refine ⟨⟨toFixed (synTemp M d t) 1, rfl, ?_, ?_⟩, ⟨toFixed (synVibration M d t) 3, rfl, ?_, ?_⟩,
    ⟨toFixed (synHumidity M d t) 1, rfl, ?_, ?_⟩, ⟨synRssi d, rfl, hR1, hR2⟩, rfl, rfl, rfl, rfl⟩
  · have := le_toFixed 540 (synTemp M d t) 1 hT0 (by norm_num; linarith)
    norm_num at this ⊢
    linarith
  · have := toFixed_le 820 (synTemp M d t) 1 hT0 (by norm_num; linarith)
    norm_num at this ⊢
    linarith
  · have := le_toFixed 320 (synVibration M d t) 3 hV0 (by norm_num at hV1 ⊢; linarith)
    norm_num at this ⊢
    linarith
  · have := toFixed_le 560 (synVibration M d t) 3 hV0 (by norm_num at hV2 ⊢; linarith)
    norm_num at this ⊢
    linarith
  · have := le_toFixed 350 (synHumidity M d t) 1 hH0 (by norm_num; linarith)
    norm_num at this ⊢
    linarith
  · have := toFixed_le 530 (synHumidity M d t) 1 hH0 (by norm_num; linarith)
    norm_num at this ⊢
    linarith

/-- Witness for C28: tick 5 under the bounded stand-in for sine and cosine. -/
theorem synthetic_sensor_ranges_witness :
    taylorMath.Bounded ∧ borderlineDraws.InUnit ∧
      (∃ x : ℚ, (generateSyntheticMachine taylorMath "2025-01-01T00:00:10.000Z"
          borderlineDraws 5).temperature = some x ∧ 54 ≤ x ∧ x ≤ 82) ∧
      ∃ n : ℤ, (generateSyntheticMachine taylorMath "2025-01-01T00:00:10.000Z"
          borderlineDraws 5).signal_strength = some (n : ℚ) ∧ -63 ≤ n ∧ n ≤ -53 :=
  have h := synthetic_sensor_ranges taylorMath "2025-01-01T00:00:10.000Z" borderlineDraws 5
    taylorMath_bounded borderlineDraws_inUnit
  ⟨taylorMath_bounded, borderlineDraws_inUnit, h.1, h.2.2.2.1⟩

/-! ## The alert banner and the energy panel -/

/-- C29, the code at the failing input. `App` passes `message` and `delay` to
`AlertBanner`, which reads `alerts`: the parameter takes its default `[]`, and
the component returns `null` for every alert set, also a non-empty one, while
it would render had it received the alerts. -/
theorem alert_banner_never_rendered (alerts : List Alert) :
    AlertBanner (appAlertBannerProps alerts) = none ∧
      alertedState.alerts.length = 2 ∧
      appAlertBanner alertedState = none ∧
      AlertBanner { alerts := some alertedState.alerts, message := none, delay := none }
        ≠ none := by
  refine ⟨rfl, by decide!, ?_, ?_⟩
  · unfold appAlertBanner
    split_ifs <;> rfl
  · decide!

/-- C30, the code at the failing input. `App` passes the savings as `value`, but
`EnergyPanel` reads `savings`: the parameter takes its default 0, and the number
handed to `AnimatedNumber` is 0 whatever `energySavings` is, here 125.5. -/
theorem energy_panel_shows_zero (s : AppState) :
    energyPanelNumber (appEnergyPanelProps s) = 0 ∧
      healthyState.energySavings = 125.5 ∧
      energyPanelNumber (appEnergyPanelProps healthyState) ≠ healthyState.energySavings := by
  have h : healthyState.energySavings = 125.5 := by decide!
  refine ⟨rfl, h, ?_⟩
  rw [h]
  show (0 : ℚ) ≠ 125.5
  norm_num

end ParakhPatch
